import Mathlib

/-!
Verification development for the OpenRegister container command API
(scripts/container-api.py, scripts/container-api-ai.py, scripts/ai_code_fixing.py).

The Python servers are embedded shallowly: strings are lists of characters,
Python builtins (str.split, str.find, the in operator, str.strip, re.search
of the concrete patterns used) are given executable Lean counterparts, HTTP
handlers become pure functions from the request data and an explicit
execution-bridge oracle to a response value, and subprocess results become an
explicit outcome type.  All definitions are executable and reduce in the
kernel, so concrete runs can be checked with decide or rfl.
-/

/-! ## Python string primitives

Strings are modelled as lists of characters.  The helpers below implement the
exact semantics of the Python builtins used by the scripts: substring search
(str.find / the in operator), str.split with a non-empty separator,
str.strip, and int() on a digit string.  ASCII whitespace models the
whitespace classes used by str.strip and the regex class backslash-s.
-/

/-- Whitespace characters recognised by Python str.strip and the regex
whitespace class (ASCII model). -/
def isPySpace (c : Char) : Bool :=
  c = ' ' || c = '\t' || c = '\n' || c = '\r' || c = '\x0b' || c = '\x0c'

/-- Python str.strip(): remove leading and trailing whitespace. -/
def pyStrip (s : List Char) : List Char :=
  ((s.dropWhile isPySpace).reverse.dropWhile isPySpace).reverse

/-- Index of the leftmost occurrence of pattern p in s (Python str.find,
returning none instead of -1). -/
def firstIdx (p : List Char) : List Char → Option Nat
  | [] => if p.isPrefixOf ([] : List Char) then some 0 else none
  | c :: rest =>
    if p.isPrefixOf (c :: rest) then some 0
    else (firstIdx p rest).map (· + 1)

/-- Python substring containment (the in operator on strings). -/
def pyContains (p s : List Char) : Bool :=
  (firstIdx p s).isSome

/-- Fuel-driven worker for pySplit: repeatedly cut at the leftmost
occurrence of the separator.  The fuel only serves termination; pySplit
always supplies enough. -/
def pySplitF (p : List Char) : Nat → List Char → List (List Char)
  | 0, s => [s]
  | fuel + 1, s =>
    match firstIdx p s with
    | none => [s]
    | some i => s.take i :: pySplitF p fuel (s.drop (i + p.length))

/-- Python str.split(sep) for a non-empty separator sep: split at each
non-overlapping leftmost occurrence. -/
def pySplit (p s : List Char) : List (List Char) :=
  pySplitF p (s.length + 1) s

/-- Python indexing xs[i] into the result of a split (guarded call sites
never go out of range, so a default is supplied). -/
def pyIdx (l : List (List Char)) (i : Nat) : List Char :=
  l.getD i []

/-- Prefix of s up to (excluding) the leftmost occurrence of p; all of s
when p does not occur.  Used as the specification-side reading of taking
the text before the next fence or separator. -/
def upToPat (p s : List Char) : List Char :=
  match firstIdx p s with
  | none => s
  | some i => s.take i

/-- Python int() on a string of decimal digits. -/
def digitsToNat (ds : List Char) : Nat :=
  ds.foldl (fun n c => n * 10 + (c.toNat - ('0').toNat)) 0

/-! ## JSON values, dictionaries, subprocess results

Request and response bodies are JSON objects, modelled as association lists
from key strings to a small JSON value type.  Python dict construction with
key collisions (dict(**a, **b) and dict.update) is modelled by setKey /
dictUpdate, which overwrite in place or append at the end, matching
insertion-order semantics of Python dicts.
-/

/-- JSON-like values appearing in request and response bodies. -/
inductive JVal where
  | s (v : List Char)
  | n (v : Int)
  | b (v : Bool)
  | null
  | list (v : List JVal)
  | obj (v : List ((List Char) × JVal))

instance : Inhabited JVal := ⟨JVal.null⟩

/-- Response and request bodies: ordered key-value pairs. -/
abbrev Fields := List ((List Char) × JVal)

/-- Write one key, overwriting in place if present, else appending
(Python dict item assignment). -/
def setKey (d : Fields) (k : List Char) (v : JVal) : Fields :=
  if d.any (fun p => p.1 == k) then
    d.map (fun p => if p.1 == k then (k, v) else p)
  else
    d ++ [(k, v)]

/-- Python dict.update: fold setKey over the new pairs. -/
def dictUpdate (d e : Fields) : Fields :=
  e.foldl (fun acc p => setKey acc p.1 p.2) d

/-- Python truthiness of an optional JSON value (None and missing are
falsy; empty strings, empty containers, zero and false are falsy). -/
def jTruthy : Option JVal → Bool
  | none => false
  | some (.s v) => !v.isEmpty
  | some (.n v) => v != 0
  | some (.b v) => v
  | some .null => false
  | some (.list v) => !v.isEmpty
  | some (.obj v) => !v.isEmpty

/-- Result of one subprocess.run of a command in the execution target:
either a completed process (any exit code) or a raised exception
(subprocess.TimeoutExpired is the timeout case; other exceptions carry
their rendered message). -/
structure RawResult where
  exitCode : Int
  stdout : List Char
  stderr : List Char

/-- Outcome of handing a bash script to the execution bridge
(subprocess.run of docker exec CONTAINER bash -c script). -/
inductive BridgeOutcome where
  | completed (r : RawResult)
  | timedOut (msg : List Char)
  | raised (msg : List Char)

/-- The execution bridge as an oracle from the bash script string to its
outcome; models the external container plus subprocess layer. -/
abbrev BridgeFn := List Char → BridgeOutcome

/-- Model of Python json.loads: none models a JSONDecodeError. -/
abbrev JsonParseFn := List Char → Option JVal

/-- A post-processor as stored in the command registry: it may consult the
bridge (some processors fetch a report file with a second subprocess call)
and the JSON parser, and either returns extra response fields or raises
(Except.error carries the rendered exception message). -/
abbrev PostProc := BridgeFn → JsonParseFn → RawResult → Except (List Char) Fields

/-- An HTTP response: status code plus JSON body fields. -/
structure HttpResponse where
  status : Nat
  body : Fields

/-! ## ai_code_fixing.py

File-operation handlers and the detailed PHPCS post-processor.  Handlers
return a HandlerOut: the dictionary they return (or, for an exception that
escapes the handler, the rendered message as Except.error) together with the
list of scripts they handed to the execution bridge, in order.  The latter
makes bridge invocations observable for the path-guard claims.  Exception
message texts raised by the Python runtime itself (TypeError, KeyError,
JSONDecodeError) are abstracted to their exception names; no claim inspects
them.
-/

/-- Python str.replace: join the split pieces with the replacement. -/
def joinWith (sep : List Char) : List (List Char) → List Char
  | [] => []
  | [x] => x
  | x :: xs => x ++ sep ++ joinWith sep xs

/-- Python str.replace(old, new) for non-empty old. -/
def pyReplace (p r s : List Char) : List Char :=
  joinWith r (pySplit p s)

/-- Outcome of one file-operation handler: the returned dict, or the
message of an exception that escaped the handler, plus every script sent
to the execution bridge. -/
structure HandlerOut where
  result : Except (List Char) Fields
  bridgeCalls : List (List Char)

/-- Script built by read_file_handler (and by the v3 read operation, which
uses the same f-string shape). -/
def readCmd (fp : List Char) : List Char :=
  ("cat /var/www/html/apps-extra/openregister/").data ++ fp

/-- Script built by write_file_handler: a quoted-heredoc transfer of the
content. -/
def heredocCmd (fp content : List Char) : List Char :=
  ("cat > /var/www/html/apps-extra/openregister/").data ++ fp
    ++ (" << \x27EOF\x27\n").data ++ content ++ ("\nEOF").data

/-- Script built by backup_file_handler. -/
def backupCmd (fp bp : List Char) : List Char :=
  ("cp /var/www/html/apps-extra/openregister/").data ++ fp
    ++ (" /var/www/html/apps-extra/openregister/").data ++ bp

/-- read_file_handler of ai_code_fixing.py.  The traversal guard runs
before the try block, so a TypeError from a non-string path escapes the
handler (Except.error). -/
def read_file_handler (bridge : BridgeFn) (request_body : Fields) : HandlerOut :=
  match List.lookup ("file").data request_body with
  | none =>
    ⟨.ok [(("error").data, .s ("Missing \x27file\x27 parameter in request body").data)], []⟩
  | some (.s file_path) =>
    if pyContains ("..").data file_path || ("/").data.isPrefixOf file_path then
      ⟨.ok [(("error").data, .s ("Invalid file path").data)], []⟩
    else
      let cmd := readCmd file_path
      match bridge cmd with
      | .completed result =>
        if result.exitCode != 0 then
          ⟨.ok [(("error").data, .s ("File not found or not readable").data),
                (("stderr").data, .s result.stderr)], [cmd]⟩
        else
          ⟨.ok [(("file").data, .s file_path),
                (("content").data, .s result.stdout),
                (("size").data, .n (result.stdout.length : Int)),
                (("lines").data, .n ((pySplit ("\n").data result.stdout).length : Int))],
           [cmd]⟩
      | .timedOut msg => ⟨.ok [(("error").data, .s msg)], [cmd]⟩
      | .raised msg => ⟨.ok [(("error").data, .s msg)], [cmd]⟩
  | some _ => ⟨.error ("TypeError").data, []⟩

/-- write_file_handler of ai_code_fixing.py.  Content is transferred with a
quoted heredoc delimited by the literal line EOF.  Non-string content is
outside the model (the f-string would stringify it); claims only concern
string content. -/
def write_file_handler (bridge : BridgeFn) (request_body : Fields) : HandlerOut :=
  if (List.lookup ("file").data request_body).isNone
      || (List.lookup ("content").data request_body).isNone then
    ⟨.ok [(("error").data, .s ("Missing \x27file\x27 or \x27content\x27 parameter").data)], []⟩
  else
    match List.lookup ("file").data request_body,
          List.lookup ("content").data request_body with
    | some (.s file_path), some (.s content) =>
      if pyContains ("..").data file_path || ("/").data.isPrefixOf file_path then
        ⟨.ok [(("error").data, .s ("Invalid file path").data)], []⟩
      else
        let cmd := heredocCmd file_path content
        match bridge cmd with
        | .completed result =>
          if result.exitCode != 0 then
            ⟨.ok [(("error").data, .s ("Failed to write file").data),
                  (("stderr").data, .s result.stderr)], [cmd]⟩
          else
            ⟨.ok [(("file").data, .s file_path),
                  (("bytes_written").data, .n (content.length : Int)),
                  (("lines_written").data, .n ((pySplit ("\n").data content).length : Int)),
                  (("status").data, .s ("success").data)], [cmd]⟩
        | .timedOut msg => ⟨.ok [(("error").data, .s msg)], [cmd]⟩
        | .raised msg => ⟨.ok [(("error").data, .s msg)], [cmd]⟩
    | _, _ => ⟨.error ("TypeError").data, []⟩

/-- backup_file_handler of ai_code_fixing.py.  The timestamp string
(datetime.now rendered as YYYYMMDD_HHMMSS) is passed in. -/
def backup_file_handler (now : List Char) (bridge : BridgeFn)
    (request_body : Fields) : HandlerOut :=
  match List.lookup ("file").data request_body with
  | none => ⟨.ok [(("error").data, .s ("Missing \x27file\x27 parameter").data)], []⟩
  | some (.s file_path) =>
    if pyContains ("..").data file_path || ("/").data.isPrefixOf file_path then
      ⟨.ok [(("error").data, .s ("Invalid file path").data)], []⟩
    else
      let backup_path := file_path ++ (".backup_").data ++ now
      let cmd := backupCmd file_path backup_path
      match bridge cmd with
      | .completed result =>
        if result.exitCode != 0 then
          ⟨.ok [(("error").data, .s ("Failed to create backup").data),
                (("stderr").data, .s result.stderr)], [cmd]⟩
        else
          ⟨.ok [(("original_file").data, .s file_path),
                (("backup_file").data, .s backup_path),
                (("timestamp").data, .s now),
                (("status").data, .s ("success").data)], [cmd]⟩
      | .timedOut msg => ⟨.ok [(("error").data, .s msg)], [cmd]⟩
      | .raised msg => ⟨.ok [(("error").data, .s msg)], [cmd]⟩
  | some _ => ⟨.error ("TypeError").data, []⟩

/-! ### process_phpcs_result (detailed PHPCS issues) -/

/-- Python subscription v[k] on a parsed JSON object. -/
def jGetKey (v : JVal) (k : List Char) : Except (List Char) JVal :=
  match v with
  | .obj fields =>
    match List.lookup k fields with
    | some x => .ok x
    | none => .error ("KeyError").data
  | _ => .error ("TypeError").data

/-- Python v.get(k, default) on a parsed JSON object. -/
def jGetDefault (v : JVal) (k : List Char) (dflt : JVal) :
    Except (List Char) JVal :=
  match v with
  | .obj fields => .ok ((List.lookup k fields).getD dflt)
  | _ => .error ("AttributeError").data

/-- A JSON value used as a Python int. -/
def jAsInt : JVal → Except (List Char) Int
  | .n i => .ok i
  | _ => .error ("TypeError").data

/-- Insertion-ordered grouping (Python dict of lists keyed by line). -/
def addToGroup (groups : List (Int × List JVal)) (line : Int) (item : JVal) :
    List (Int × List JVal) :=
  if groups.any (fun g => g.1 == line) then
    groups.map (fun g => if g.1 == line then (g.1, g.2 ++ [item]) else g)
  else
    groups ++ [(line, [item])]

/-- One message of the PHPCS report, as grouped by process_phpcs_result. -/
def phpcsMessageEntry (msg : JVal) : Except (List Char) (Int × JVal) := do
  let line ← jGetKey msg ("line").data >>= jAsInt
  let col ← jGetKey msg ("column").data
  let ty ← jGetKey msg ("type").data
  let sev ← jGetKey msg ("severity").data
  let m ← jGetKey msg ("message").data
  let src ← jGetKey msg ("source").data
  let fx ← jGetDefault msg ("fixable").data (.b false)
  return (line, .obj [(("column").data, col), (("type").data, ty),
    (("severity").data, sev), (("message").data, m),
    (("source").data, src), (("fixable").data, fx)])

/-- The message loop of process_phpcs_result. -/
def phpcsGroupMessages : List JVal → List (Int × List JVal) →
    Except (List Char) (List (Int × List JVal))
  | [], groups => .ok groups
  | m :: ms, groups => do
    let e ← phpcsMessageEntry m
    phpcsGroupMessages ms (addToGroup groups e.1 e.2)

/-- Serialized form of the per-line grouping (JSON stringifies the integer
keys on the wire). -/
def intKeyObj (groups : List (Int × List JVal)) : JVal :=
  .obj (groups.map (fun g => ((toString g.1).data, JVal.list g.2)))

/-- One file entry of the PHPCS report; none when the file has no errors
and no warnings. -/
def phpcsFileEntry (fpath : List Char) (fdata : JVal) :
    Except (List Char) (Option (JVal × Int × Int)) := do
  let errors ← jGetKey fdata ("errors").data >>= jAsInt
  let warnings ← jGetKey fdata ("warnings").data >>= jAsInt
  if errors > 0 || warnings > 0 then
    let messages ← jGetDefault fdata ("messages").data (.list [])
    let msgList ← match messages with
      | .list l => Except.ok l
      | _ => Except.error ("TypeError").data
    let groups ← phpcsGroupMessages msgList []
    let fixable ← jGetKey fdata ("fixable").data
    return some (.obj [
      (("file").data, .s fpath),
      (("relative_path").data,
        .s (pyReplace ("/var/www/html/apps-extra/openregister/").data [] fpath)),
      (("errors").data, .n errors),
      (("warnings").data, .n warnings),
      (("fixable").data, fixable),
      (("issues_by_line").data, intKeyObj groups)], errors, warnings)
  else
    return none

/-- The file loop of process_phpcs_result, preserving report order and
accumulating the error and warning totals. -/
def phpcsCollect : List ((List Char) × JVal) →
    Except (List Char) (List JVal × Int × Int)
  | [] => .ok ([], 0, 0)
  | (fp, fd) :: rest => do
    let head ← phpcsFileEntry fp fd
    let tail ← phpcsCollect rest
    match head with
    | none => return tail
    | some (entry, e, w) => return (entry :: tail.1, tail.2.1 + e, tail.2.2 + w)

/-- The second PHPCS run made inside process_phpcs_result. -/
def phpcsAuxCmd : List Char :=
  ("cd /var/www/html/apps-extra/openregister && ./vendor/bin/phpcs --report=json --standard=PSR12 lib/ 2>&1").data

/-- The fallible part of process_phpcs_result: run PHPCS again, parse the
JSON, walk the files. -/
def phpcsCollected (bridge : BridgeFn) (jsonParse : JsonParseFn) :
    Except (List Char) (List JVal × Int × Int) :=
  match bridge phpcsAuxCmd with
  | .completed jr =>
    match jsonParse jr.stdout with
    | none => .error ("JSONDecodeError").data
    | some phpcs_data => do
      let files ← jGetDefault phpcs_data ("files").data (.obj [])
      let fileList ← match files with
        | .obj l => Except.ok l
        | _ => Except.error ("AttributeError").data
      phpcsCollect fileList
  | .timedOut msg => .error msg
  | .raised msg => .error msg

/-- process_phpcs_result of ai_code_fixing.py: runs PHPCS with a JSON
report, extracts issues per file grouped by line; every exception is caught
and degraded to an error field, so the processor itself never raises. -/
def process_phpcs_result : PostProc := fun bridge jsonParse _result =>
  match phpcsCollected bridge jsonParse with
  | .ok collected => .ok [
      (("phpcs_issues").data, .list collected.1),
      (("totals").data, .obj [
        (("files_with_issues").data, .n (collected.1.length : Int)),
        (("total_errors").data, .n collected.2.1),
        (("total_warnings").data, .n collected.2.2)]),
      (("ready_for_ai_fixing").data, .b (collected.1.length > 0))]
  | .error e => .ok [
      (("phpcs_issues").data, .list []),
      (("error").data, .s (("Failed to parse PHPCS output: ").data ++ e))]

/-- One entry of the AI_COMMANDS table of ai_code_fixing.py. -/
structure AiCommandEntry where
  name : List Char
  command : Option (List Char)
  timeout : Nat
  description : List Char
  post_processor : Option PostProc
  handler : Option (List Char)

/-- The AI_COMMANDS table of ai_code_fixing.py. -/
def AI_COMMANDS : List ((List Char) × AiCommandEntry) := [
  (("phpcs-detailed").data,
    { name := ("phpcs-detailed").data,
      command := some ("./vendor/bin/phpcs --report=json --standard=PSR12 lib/").data,
      timeout := 60,
      description := ("Run PHPCS and get detailed issues per file for AI fixing").data,
      post_processor := some process_phpcs_result,
      handler := none }),
  (("read-file").data,
    { name := ("read-file").data,
      command := none,
      timeout := 10,
      description := ("Read a file from the container (use POST body: \x7b\"file\": \"path/to/file.php\"\x7d)").data,
      post_processor := none,
      handler := some ("read_file_handler").data }),
  (("write-file").data,
    { name := ("write-file").data,
      command := none,
      timeout := 10,
      description := ("Write content to a file (use POST body: \x7b\"file\": \"path\", \"content\": \"...\"\x7d)").data,
      post_processor := none,
      handler := some ("write_file_handler").data }),
  (("backup-file").data,
    { name := ("backup-file").data,
      command := none,
      timeout := 10,
      description := ("Create a backup of a file before AI fixes").data,
      post_processor := none,
      handler := some ("backup_file_handler").data })]

/-! ## container-api.py

Textual-metric post-processors, the command registry, the command execution
engine and the dispatcher.  The two concrete regular expressions of the
scripts are embedded directly: in both, the character classes of adjacent
regex atoms are disjoint, so greedy matching is deterministic and an
anchored matcher tried at every position left to right implements
re.search exactly.
-/

/-- Anchored match of the pattern group-of-digits, whitespace-plus, literal
file (regex used by process_cs_fix_result), returning group 1. -/
def matchNumFileAt (s : List Char) : Option (List Char) :=
  let ds := s.takeWhile Char.isDigit
  if ds.isEmpty then none
  else
    let r1 := s.drop ds.length
    let ws := r1.takeWhile isPySpace
    if ws.isEmpty then none
    else if ("file").data.isPrefixOf (r1.drop ws.length) then some ds else none

/-- re.search: try the anchored matcher at each position, leftmost first. -/
def reSearch (m : List Char → Option (List Char)) : List Char → Option (List Char)
  | [] => m []
  | c :: rest =>
    match m (c :: rest) with
    | some g => some g
    | none => reSearch m rest

/-- Anchored match of literal label, whitespace-plus, group-of-digits
(regex used by process_test_result), returning group 1. -/
def matchLabelNumAt (label : List Char) (s : List Char) : Option (List Char) :=
  if label.isPrefixOf s then
    let r1 := s.drop label.length
    let ws := r1.takeWhile isPySpace
    if ws.isEmpty then none
    else
      let ds := (r1.drop ws.length).takeWhile Char.isDigit
      if ds.isEmpty then none else some ds
  else none

/-- The loop body of process_cs_fix_result: lines mentioning Fixed or
fixed overwrite the running count with their first pattern match. -/
def csFixLoopBody (acc : Int) (line : List Char) : Int :=
  if pyContains ("Fixed").data line || pyContains ("fixed").data line then
    match reSearch matchNumFileAt line with
    | some ds => (digitsToNat ds : Int)
    | none => acc
  else acc

/-- process_cs_fix_result of container-api.py: scan the output lines that
mention Fixed or fixed, keeping the count from the most recent matching
line. -/
def process_cs_fix_result (result : RawResult) : Fields :=
  let output_lines := pySplit ("\n").data result.stdout
  let files_fixed := output_lines.foldl csFixLoopBody 0
  [(("files_fixed").data, .n (files_fixed : Int)),
   (("message").data, .s (if files_fixed > 0 then
      ("Fixed ").data ++ (toString files_fixed).data ++ (" file(s)").data
    else ("No files needed fixing").data))]

/-- process_test_result of container-api.py: first match of each metric
pattern over the whole output, defaulting to 0. -/
def process_test_result (result : RawResult) : Fields :=
  let output := result.stdout
  let tests_match := reSearch (matchLabelNumAt ("Tests:").data) output
  let assertions_match := reSearch (matchLabelNumAt ("Assertions:").data) output
  let failures_match := reSearch (matchLabelNumAt ("Failures:").data) output
  [(("tests_run").data, .n (((tests_match.map digitsToNat).getD 0 : Nat) : Int)),
   (("assertions").data, .n (((assertions_match.map digitsToNat).getD 0 : Nat) : Int)),
   (("failures").data, .n (((failures_match.map digitsToNat).getD 0 : Nat) : Int)),
   (("success").data, .b (result.exitCode == 0))]

/-- The report fetch made inside process_phpqa_result. -/
def phpqaAuxCmd : List Char :=
  ("cat /var/www/html/apps-extra/openregister/phpqa/phpqa.json 2>/dev/null || echo \"\x7b\x7d\"").data

/-- The fallible part of process_phpqa_result: fetch and parse the report. -/
def phpqaReport (bridge : BridgeFn) (jsonParse : JsonParseFn) :
    Except (List Char) JVal :=
  match bridge phpqaAuxCmd with
  | .completed jr =>
    match jsonParse jr.stdout with
    | none => .error ("JSONDecodeError").data
    | some phpqa_json => .ok phpqa_json
  | .timedOut msg => .error msg
  | .raised msg => .error msg

/-- process_phpqa_result of container-api.py: fetch and parse the phpqa
JSON report; every exception is degraded to an error entry inside the
report field, so the processor never raises. -/
def process_phpqa_result : PostProc := fun bridge jsonParse _result =>
  match phpqaReport bridge jsonParse with
  | .ok phpqa_json => .ok [
      (("phpqa_report").data, phpqa_json),
      (("report_files").data, .obj [
        (("json").data, .s ("phpqa/phpqa.json").data),
        (("html").data, .s ("phpqa/phpqa-offline.html").data),
        (("metrics").data, .s ("phpqa/phpmetrics/").data)])]
  | .error e => .ok [(("phpqa_report").data,
      .obj [(("error").data, .s (("Failed to parse phpqa.json: ").data ++ e))])]

/-- The pure textual processors, lifted to registry post-processors; being
total functions of the raw result they never raise. -/
def csFixPP : PostProc := fun _ _ r => .ok (process_cs_fix_result r)

/-- process_test_result as a registry post-processor. -/
def testPP : PostProc := fun _ _ r => .ok (process_test_result r)

/-- CommandConfig of container-api.py. -/
structure CommandConfig where
  name : List Char
  command : List Char
  timeout : Nat
  description : List Char
  post_processor : Option PostProc

/-- The static command table of container-api.py. -/
def BASE_COMMANDS : List ((List Char) × CommandConfig) := [
  (("phpqa").data,
    { name := ("phpqa").data, command := ("composer phpqa").data, timeout := 300,
      description := ("Run full PHPQA analysis suite (PHPCS, PHPMD, PHPStan, Psalm, PHPMetrics)").data,
      post_processor := some process_phpqa_result }),
  (("cs-fix").data,
    { name := ("cs-fix").data, command := ("composer cs:fix").data, timeout := 120,
      description := ("Auto-fix code style issues with PHP CS Fixer").data,
      post_processor := some csFixPP }),
  (("cs-check").data,
    { name := ("cs-check").data, command := ("composer cs:check").data, timeout := 60,
      description := ("Check code style without fixing (dry-run)").data,
      post_processor := none }),
  (("phpstan").data,
    { name := ("phpstan").data, command := ("composer phpstan").data, timeout := 120,
      description := ("Run PHPStan static analysis").data,
      post_processor := none }),
  (("psalm").data,
    { name := ("psalm").data, command := ("composer psalm").data, timeout := 120,
      description := ("Run Psalm static analysis").data,
      post_processor := none }),
  (("test-unit").data,
    { name := ("test-unit").data, command := ("composer test:unit").data, timeout := 180,
      description := ("Run PHPUnit unit tests").data,
      post_processor := some testPP }),
  (("test-integration").data,
    { name := ("test-integration").data, command := ("composer test:integration").data, timeout := 300,
      description := ("Run integration tests").data,
      post_processor := some testPP }),
  (("composer-install").data,
    { name := ("composer-install").data, command := ("composer install").data, timeout := 180,
      description := ("Install composer dependencies").data,
      post_processor := none }),
  (("composer-update").data,
    { name := ("composer-update").data, command := ("composer update").data, timeout := 300,
      description := ("Update composer dependencies").data,
      post_processor := none }),
  (("npm-install").data,
    { name := ("npm-install").data, command := ("npm install").data, timeout := 180,
      description := ("Install npm dependencies").data,
      post_processor := none }),
  (("build-js").data,
    { name := ("build-js").data, command := ("npm run build").data, timeout := 120,
      description := ("Build JavaScript/Vue assets").data,
      post_processor := none }),
  (("watch-js").data,
    { name := ("watch-js").data, command := ("npm run watch").data, timeout := 3600,
      description := ("Watch and rebuild JavaScript on changes").data,
      post_processor := none })]

/-- The merge loop at module scope: AI_COMMANDS entries without a handler
key become ordinary CommandConfig entries appended to the table.  The
merged entry always carries a command string, so the empty default is
never used. -/
def COMMANDS : List ((List Char) × CommandConfig) :=
  BASE_COMMANDS ++ (AI_COMMANDS.filter (fun e => e.2.handler.isNone)).map
    (fun e => (e.1,
      { name := e.2.name, command := e.2.command.getD [],
        timeout := e.2.timeout, description := e.2.description,
        post_processor := e.2.post_processor }))

/-- The bash script _execute_command hands to the bridge for a registry
command. -/
def execScript (command : List Char) : List Char :=
  ("cd /var/www/html/apps-extra/openregister && ").data ++ command ++ (" 2>&1").data

/-- The base response dict of ContainerAPIHandler._execute_command. -/
def baseResponseFields (ts name fullcmd : List Char) (result : RawResult) :
    Fields := [
  (("timestamp").data, .s ts),
  (("command").data, .s name),
  (("full_command").data, .s fullcmd),
  (("status").data, .s (if result.exitCode == 0 then ("success").data
    else ("completed_with_errors").data)),
  (("exit_code").data, .n result.exitCode),
  (("output").data, .s result.stdout),
  (("container").data, .s ("master-nextcloud-1").data)]

/-- ContainerAPIHandler._execute_command: run the command, build the base
response, layer post-processor fields on top; a raising post-processor is
caught individually and recorded as post_processor_error; the completed
case always answers HTTP 200, timeout answers 408, a launch failure 500. -/
def executeCommand (cfg : CommandConfig) (bridge : BridgeFn)
    (jsonParse : JsonParseFn) (ts : List Char) : HttpResponse :=
  match bridge (execScript cfg.command) with
  | .completed result =>
    let response_data := baseResponseFields ts cfg.name cfg.command result
    let response_data :=
      match cfg.post_processor with
      | none => response_data
      | some pp =>
        match pp bridge jsonParse result with
        | .ok extra => dictUpdate response_data extra
        | .error e => setKey response_data ("post_processor_error").data (.s e)
    ⟨200, response_data⟩
  | .timedOut _ =>
    ⟨408, [(("error").data, .s (("Request timeout after ").data
        ++ (toString cfg.timeout).data ++ (" seconds").data)),
      (("command").data, .s cfg.name)]⟩
  | .raised msg =>
    ⟨500, [(("error").data, .s msg), (("command").data, .s cfg.name)]⟩

/-- A POST body as seen after the HTTP layer: absent, undecodable JSON, or
a decoded object. -/
inductive JBody where
  | empty
  | malformed (msg : List Char)
  | parsed (d : Fields)

/-- ContainerAPIHandler._handle_file_operation: parse the body, dispatch to
the matching handler, answer 200 unless the handler dict carries an error
key (then 400); an exception escaping a handler answers 500. -/
def handleFileOperation (operation : List Char) (body : JBody)
    (bridge : BridgeFn) (ts now : List Char) : HttpResponse :=
  match body with
  | .empty => ⟨400, [(("error").data, .s ("Request body required").data)]⟩
  | .malformed _ => ⟨400, [(("error").data, .s ("Invalid JSON in request body").data)]⟩
  | .parsed request_data =>
    let hout : HandlerOut :=
      if operation == ("read-file").data then read_file_handler bridge request_data
      else if operation == ("write-file").data then write_file_handler bridge request_data
      else if operation == ("backup-file").data then backup_file_handler now bridge request_data
      else ⟨.ok [(("error").data, .s ("Unknown operation").data)], []⟩
    match hout.result with
    | .error e => ⟨500, [(("error").data, .s e)]⟩
    | .ok result =>
      let response_data := dictUpdate [
        (("timestamp").data, .s ts),
        (("operation").data, .s operation),
        (("container").data, .s ("master-nextcloud-1").data)] result
      let status_code := if (List.lookup ("error").data result).isSome then 400 else 200
      ⟨status_code, response_data⟩

/-- Routing decision of ContainerAPIHandler.do_POST. -/
inductive Route where
  | fileOp (operation : List Char)
  | command (cfg : CommandConfig)
  | unknown (resp : HttpResponse)

/-- The three built-in file operation names. -/
def fileOpNames : List (List Char) :=
  [("read-file").data, ("write-file").data, ("backup-file").data]

/-- ContainerAPIHandler.do_POST: strip leading slashes, give the file
operations precedence, then the registry, else a 404 that enumerates every
known command plus the three file operations. -/
def doPost (rawPath : List Char) : Route :=
  let command_name := rawPath.dropWhile (· = '/')
  if fileOpNames.contains command_name then .fileOp command_name
  else
    match List.lookup command_name COMMANDS with
    | some cfg => .command cfg
    | none => .unknown ⟨404, [
        (("error").data, .s (("Unknown command: ").data ++ command_name)),
        (("available_commands").data,
          .list ((COMMANDS.map (fun e => JVal.s e.1)) ++ (fileOpNames.map JVal.s)))]⟩

/-! ## container-api-ai.py

The v3 server: its own PHPCS post-processor (parsing the stdout of the run
itself), a three-entry registry, file operations that transfer content with
base64, and the AI fix workflow.  The fix workflow is split at its external
boundaries: handleAiFixPre embeds everything up to the model call (json.dumps
and the str conversion of the f-string are oracles), handleAiFixModelReply
embeds everything after the model answers.
-/

/-- Python len() of a JSON value. -/
def jLen : JVal → Except (List Char) Int
  | .s v => .ok (v.length : Int)
  | .list v => .ok (v.length : Int)
  | .obj v => .ok (v.length : Int)
  | _ => .error ("TypeError").data

/-- One message entry of process_phpcs_detailed (no severity, no fixable
field in this variant). -/
def aiMessageEntry (msg : JVal) : Except (List Char) (Int × JVal) := do
  let line ← jGetKey msg ("line").data >>= jAsInt
  let col ← jGetKey msg ("column").data
  let ty ← jGetKey msg ("type").data
  let m ← jGetKey msg ("message").data
  let src ← jGetKey msg ("source").data
  return (line, .obj [(("column").data, col), (("type").data, ty),
    (("message").data, m), (("source").data, src)])

/-- The message loop of process_phpcs_detailed. -/
def aiGroupMessages : List JVal → List (Int × List JVal) →
    Except (List Char) (List (Int × List JVal))
  | [], groups => .ok groups
  | m :: ms, groups => do
    let e ← aiMessageEntry m
    aiGroupMessages ms (addToGroup groups e.1 e.2)

/-- One file entry of process_phpcs_detailed. -/
def aiFileEntry (fpath : List Char) (fdata : JVal) :
    Except (List Char) (Option (JVal × Int × Int)) := do
  let errors ← jGetDefault fdata ("errors").data (.n 0) >>= jAsInt
  let warnings ← jGetDefault fdata ("warnings").data (.n 0) >>= jAsInt
  if errors > 0 || warnings > 0 then
    let messages ← jGetDefault fdata ("messages").data (.list [])
    let msgList ← match messages with
      | .list l => Except.ok l
      | _ => Except.error ("TypeError").data
    let groups ← aiGroupMessages msgList []
    return some (.obj [
      (("file").data,
        .s (pyReplace ("/var/www/html/apps-extra/openregister/").data [] fpath)),
      (("errors").data, .n errors),
      (("warnings").data, .n warnings),
      (("issues_by_line").data, intKeyObj groups)], errors, warnings)
  else
    return none

/-- The file loop of process_phpcs_detailed. -/
def aiCollect : List ((List Char) × JVal) →
    Except (List Char) (List JVal × Int × Int)
  | [] => .ok ([], 0, 0)
  | (fp, fd) :: rest => do
    let head ← aiFileEntry fp fd
    let tail ← aiCollect rest
    match head with
    | none => return tail
    | some (entry, e, w) => return (entry :: tail.1, tail.2.1 + e, tail.2.2 + w)

/-- The fallible part of process_phpcs_detailed. -/
def aiDetailedCollected (jsonParse : JsonParseFn) (result : RawResult) :
    Except (List Char) (List JVal × Int × Int) :=
  match jsonParse result.stdout with
  | none => .error ("JSONDecodeError").data
  | some phpcs_data => do
    let files ← jGetDefault phpcs_data ("files").data (.obj [])
    let fileList ← match files with
      | .obj l => Except.ok l
      | _ => Except.error ("AttributeError").data
    aiCollect fileList

/-- process_phpcs_detailed of container-api-ai.py: parse the stdout of the
PHPCS run itself; every exception is caught and degraded to an error field,
so the processor never raises. -/
def process_phpcs_detailed : PostProc := fun _bridge jsonParse result =>
  match aiDetailedCollected jsonParse result with
  | .ok collected => .ok [
      (("phpcs_issues").data, .list collected.1),
      (("totals").data, .obj [
        (("files_with_issues").data, .n (collected.1.length : Int)),
        (("total_errors").data, .n (collected.2.1)),
        (("total_warnings").data, .n (collected.2.2))])]
  | .error e => .ok [(("error").data, .s (("Failed to parse PHPCS: ").data ++ e))]

/-- One entry of the COMMANDS dict of container-api-ai.py. -/
structure AiCmdConfig where
  command : List Char
  timeout : Nat
  description : List Char
  post_processor : Option PostProc

/-- The COMMANDS dict of container-api-ai.py. -/
def AI_SERVER_COMMANDS : List ((List Char) × AiCmdConfig) := [
  (("phpcs-detailed").data,
    { command := ("./vendor/bin/phpcs --report=json --standard=PSR12 lib/").data,
      timeout := 60,
      description := ("Get detailed PHPCS issues for AI fixing").data,
      post_processor := some process_phpcs_detailed }),
  (("phpqa").data,
    { command := ("composer phpqa").data, timeout := 300,
      description := ("Run full PHPQA suite").data, post_processor := none }),
  (("cs-fix").data,
    { command := ("composer cs:fix").data, timeout := 120,
      description := ("Auto-fix code style").data, post_processor := none })]

/-- The base response dict of AICodeFixingHandler._execute_command. -/
def aiBaseResponseFields (ts cmd_name : List Char) (result : RawResult) :
    Fields := [
  (("timestamp").data, .s ts),
  (("command").data, .s cmd_name),
  (("status").data, .s (if result.exitCode == 0 then ("success").data
    else ("completed_with_errors").data)),
  (("exit_code").data, .n result.exitCode),
  (("output").data, .s result.stdout)]

/-- AICodeFixingHandler._execute_command: the post-processor call is inside
the handler try block with no inner catch, so a raising post-processor
discards the base response and answers 500 with the exception message. -/
def aiExecuteCommandCfg (cmd_name : List Char) (cfg : AiCmdConfig)
    (bridge : BridgeFn) (jsonParse : JsonParseFn) (ts : List Char) :
    HttpResponse :=
  match bridge (execScript cfg.command) with
  | .completed result =>
    let response := aiBaseResponseFields ts cmd_name result
    match cfg.post_processor with
    | none => ⟨200, response⟩
    | some pp =>
      match pp bridge jsonParse result with
      | .ok extra => ⟨200, dictUpdate response extra⟩
      | .error e => ⟨500, [(("error").data, .s e)]⟩
  | .timedOut _ => ⟨408, [(("error").data, .s ("Timeout").data)]⟩
  | .raised msg => ⟨500, [(("error").data, .s msg)]⟩

/-- AICodeFixingHandler._execute_command looked up by name. -/
def aiExecuteCommand (cmd_name : List Char) (bridge : BridgeFn)
    (jsonParse : JsonParseFn) (ts : List Char) : Option HttpResponse :=
  (List.lookup cmd_name AI_SERVER_COMMANDS).map
    (fun cfg => aiExecuteCommandCfg cmd_name cfg bridge jsonParse ts)

/-- AICodeFixingHandler._read_file: the guard rejects falsy paths and paths
containing a parent segment, but nothing else; subprocess exceptions are
not caught here and escape to the surrounding operation handler. -/
def aiReadFile (bridge : BridgeFn) (file_path : Option JVal) : HandlerOut :=
  if !jTruthy file_path then
    ⟨.ok [(("error").data, .s ("Invalid file path").data)], []⟩
  else
    match file_path with
    | some (.s fp) =>
      if pyContains ("..").data fp then
        ⟨.ok [(("error").data, .s ("Invalid file path").data)], []⟩
      else
        let cmd := readCmd fp
        match bridge cmd with
        | .completed result =>
          if result.exitCode != 0 then
            ⟨.ok [(("error").data, .s ("File not found").data)], [cmd]⟩
          else
            ⟨.ok [(("file").data, .s fp),
                  (("content").data, .s result.stdout),
                  (("size").data, .n (result.stdout.length : Int)),
                  (("lines").data, .n ((pySplit ("\n").data result.stdout).length : Int))],
             [cmd]⟩
        | .timedOut msg => ⟨.error msg, [cmd]⟩
        | .raised msg => ⟨.error msg, [cmd]⟩
    | _ => ⟨.error ("TypeError").data, []⟩

/-- UTF-8 encoding of one character (Python str.encode). -/
def utf8EncodeChar (c : Char) : List Nat :=
  let n := c.toNat
  if n < 0x80 then [n]
  else if n < 0x800 then [0xC0 + n / 0x40, 0x80 + n % 0x40]
  else if n < 0x10000 then
    [0xE0 + n / 0x1000, 0x80 + (n / 0x40) % 0x40, 0x80 + n % 0x40]
  else
    [0xF0 + n / 0x40000, 0x80 + (n / 0x1000) % 0x40,
     0x80 + (n / 0x40) % 0x40, 0x80 + n % 0x40]

/-- UTF-8 bytes of a string. -/
def utf8Bytes (s : List Char) : List Nat :=
  (s.map utf8EncodeChar).flatten

/-- The standard base64 alphabet. -/
def b64Alphabet : List Char :=
  ("ABCDEFGHIJKLMNOPQRSTUVWXYZabcdefghijklmnopqrstuvwxyz0123456789+/").data

/-- One base64 alphabet character. -/
def b64Char (n : Nat) : Char :=
  b64Alphabet.getD n ('A')

/-- base64 of a byte sequence with padding. -/
def b64encodeBytes : List Nat → List Char
  | [] => []
  | [a] => [b64Char (a / 4), b64Char ((a % 4) * 16), '=', '=']
  | [a, b] => [b64Char (a / 4), b64Char ((a % 4) * 16 + b / 16),
               b64Char ((b % 16) * 4), '=']
  | a :: b :: c :: rest =>
    b64Char (a / 4) :: b64Char ((a % 4) * 16 + b / 16) ::
    b64Char ((b % 16) * 4 + c / 64) :: b64Char (c % 64) :: b64encodeBytes rest

/-- base64.b64encode(content.encode(utf-8)).decode(utf-8). -/
def pyB64Encode (s : List Char) : List Char :=
  b64encodeBytes (utf8Bytes s)

/-- Script built by AICodeFixingHandler._write_file. -/
def aiWriteCmd (fp content : List Char) : List Char :=
  ("echo \"").data ++ pyB64Encode content
    ++ ("\" | base64 -d > /var/www/html/apps-extra/openregister/").data ++ fp

/-- AICodeFixingHandler._write_file: same guard as _read_file; the content
travels base64-encoded. -/
def aiWriteFile (bridge : BridgeFn) (file_path content : Option JVal) :
    HandlerOut :=
  if !jTruthy file_path then
    ⟨.ok [(("error").data, .s ("Invalid file path").data)], []⟩
  else
    match file_path with
    | some (.s fp) =>
      if pyContains ("..").data fp then
        ⟨.ok [(("error").data, .s ("Invalid file path").data)], []⟩
      else
        match content with
        | some (.s c) =>
          let cmd := aiWriteCmd fp c
          match bridge cmd with
          | .completed result =>
            if result.exitCode != 0 then
              ⟨.ok [(("error").data, .s ("Failed to write file").data)], [cmd]⟩
            else
              ⟨.ok [(("file").data, .s fp),
                    (("bytes_written").data, .n (c.length : Int)),
                    (("status").data, .s ("success").data)], [cmd]⟩
          | .timedOut msg => ⟨.error msg, [cmd]⟩
          | .raised msg => ⟨.error msg, [cmd]⟩
        | _ => ⟨.error ("AttributeError").data, []⟩
    | _ => ⟨.error ("TypeError").data, []⟩

/-- AICodeFixingHandler._backup_file: same guard; copies to a timestamped
sibling. -/
def aiBackupFile (now : List Char) (bridge : BridgeFn)
    (file_path : Option JVal) : HandlerOut :=
  if !jTruthy file_path then
    ⟨.ok [(("error").data, .s ("Invalid file path").data)], []⟩
  else
    match file_path with
    | some (.s fp) =>
      if pyContains ("..").data fp then
        ⟨.ok [(("error").data, .s ("Invalid file path").data)], []⟩
      else
        let backup_path := fp ++ (".backup_").data ++ now
        let cmd := backupCmd fp backup_path
        match bridge cmd with
        | .completed result =>
          if result.exitCode != 0 then
            ⟨.ok [(("error").data, .s ("Failed to create backup").data)], [cmd]⟩
          else
            ⟨.ok [(("original").data, .s fp),
                  (("backup").data, .s backup_path),
                  (("timestamp").data, .s now)], [cmd]⟩
        | .timedOut msg => ⟨.error msg, [cmd]⟩
        | .raised msg => ⟨.error msg, [cmd]⟩
    | _ => ⟨.error ("TypeError").data, []⟩

/-- AICodeFixingHandler._handle_file_operation: no empty-body check and no
JSON-specific catch; any exception (decode failure included) answers 500;
a handler dict is always sent as 200, error key or not. -/
def aiHandleFileOperation (operation : List Char) (body : JBody)
    (bridge : BridgeFn) (now : List Char) : HttpResponse :=
  match body with
  | .empty =>
    ⟨500, [(("error").data, .s ("Expecting value: line 1 column 1 (char 0)").data)]⟩
  | .malformed msg => ⟨500, [(("error").data, .s msg)]⟩
  | .parsed body_d =>
    let hout : HandlerOut :=
      if operation == ("read-file").data then
        aiReadFile bridge (List.lookup ("file").data body_d)
      else if operation == ("write-file").data then
        aiWriteFile bridge (List.lookup ("file").data body_d)
          (List.lookup ("content").data body_d)
      else if operation == ("backup-file").data then
        aiBackupFile now bridge (List.lookup ("file").data body_d)
      else ⟨.error ("NameError").data, []⟩
    match hout.result with
    | .error e => ⟨500, [(("error").data, .s e)]⟩
    | .ok result => ⟨200, result⟩

/-- Outcome of the first half of _handle_ai_fix: an immediate response, or
the model call with the prompt it carries. -/
inductive AiFixStep where
  | reply (resp : HttpResponse)
  | callModel (prompt : List Char)

/-- The prompt f-string of _handle_ai_fix; dumps stands for json.dumps with
indent 2 and pyToStr for the str conversion the f-string applies. -/
def buildPrompt (dumps pyToStr : JVal → List Char) (issues content : JVal) :
    List Char :=
  ("Fix this PHP code according to PSR-12 standards.\n\nIssues found:\n").data
    ++ dumps issues
    ++ ("\n\nCurrent code:\n```php\n").data
    ++ pyToStr content
    ++ ("\n```\n\nProvide ONLY the fixed PHP code, no explanations.").data

/-- AICodeFixingHandler._handle_ai_fix, up to the model call: extract the
three fields and require them all truthy (Python not all of the list),
else 400. -/
def handleAiFixPre (dumps pyToStr : JVal → List Char) (body : JBody) :
    AiFixStep :=
  match body with
  | .empty =>
    .reply ⟨500, [(("error").data, .s ("Expecting value: line 1 column 1 (char 0)").data)]⟩
  | .malformed msg => .reply ⟨500, [(("error").data, .s msg)]⟩
  | .parsed d =>
    match List.lookup ("file").data d, List.lookup ("issues").data d,
          List.lookup ("content").data d with
    | some fv, some iv, some cv =>
      if jTruthy (some fv) && jTruthy (some iv) && jTruthy (some cv) then
        .callModel (buildPrompt dumps pyToStr iv cv)
      else
        .reply ⟨400, [(("error").data, .s ("Missing required fields").data)]⟩
    | _, _, _ =>
      .reply ⟨400, [(("error").data, .s ("Missing required fields").data)]⟩

/-- The markdown extraction step of _handle_ai_fix. -/
def extractCode (fixed_code : List Char) : List Char :=
  if pyContains ("```php").data fixed_code then
    pyStrip (pyIdx (pySplit ("```").data
      (pyIdx (pySplit ("```php").data fixed_code) 1)) 0)
  else if pyContains ("```").data fixed_code then
    pyStrip (pyIdx (pySplit ("```").data
      (pyIdx (pySplit ("```").data fixed_code) 1)) 0)
  else fixed_code

/-- AICodeFixingHandler._handle_ai_fix, after the model answered: non-200
is an Ollama API error; else take the response field, extract the code
block, and answer 200 with the fix. -/
def handleAiFixModelReply (file_path content : JVal)
    (modelStatus : Nat) (modelBody : JVal) : HttpResponse :=
  if modelStatus != 200 then
    ⟨500, [(("error").data, .s ("Ollama API error").data)]⟩
  else
    match modelBody with
    | .obj l =>
      match (List.lookup ("response").data l).getD (.s []) with
      | .s raw =>
        let fixed_code := extractCode raw
        match jLen content with
        | .ok osize =>
          ⟨200, [(("file").data, file_path),
                 (("original_size").data, .n osize),
                 (("fixed_size").data, .n (fixed_code.length : Int)),
                 (("fixed_code").data, .s fixed_code),
                 (("status").data, .s ("success").data)]⟩
        | .error e => ⟨500, [(("error").data, .s e)]⟩
      | _ => ⟨500, [(("error").data, .s ("TypeError").data)]⟩
    | _ => ⟨500, [(("error").data, .s ("AttributeError").data)]⟩

/-- Routing decision of AICodeFixingHandler.do_POST. -/
inductive AiRoute where
  | fileOp (operation : List Char)
  | aiFix
  | command (name : List Char) (cfg : AiCmdConfig)
  | unknown (resp : HttpResponse)

/-- AICodeFixingHandler.do_POST: file operations, then the fix route, then
the registry, else a 404 carrying only an error message. -/
def aiDoPost (rawPath : List Char) : AiRoute :=
  let path := rawPath.dropWhile (· = '/')
  if fileOpNames.contains path then .fileOp path
  else if path == ("ai-fix-code").data then .aiFix
  else
    match List.lookup path AI_SERVER_COMMANDS with
    | some cfg => .command path cfg
    | none => .unknown ⟨404,
        [(("error").data, .s (("Unknown endpoint: ").data ++ path))]⟩

/-! ## Bash heredoc semantics for the v2 write operation -/

/-- What the quoted heredoc of write_file_handler actually stores: the
script text after the redirection line is the content, a newline, and the
delimiter EOF; bash feeds every line strictly before the first line equal
to EOF to cat, each terminated by a newline.  Lines of the content after an
embedded EOF line are executed by bash as further commands instead. -/
def heredocWritten (content : List Char) : List Char :=
  ((pySplit ("\n").data content).takeWhile (fun l => l ≠ ("EOF").data)).foldr
    (fun l acc => l ++ ("\n").data ++ acc) []

/-! ## Specification-side readings

Definitions below render the wording of the specification sentences under
test, independently of the split-and-fold computations of the code, so that
the claim theorems compare the two.
-/

/-- The value the cs-fix loop body extracts from one line: the first match
of the digits-then-file pattern, for lines mentioning Fixed or fixed. -/
def lineMatchValue (line : List Char) : Option Int :=
  if pyContains ("Fixed").data line || pyContains ("fixed").data line then
    (reSearch matchNumFileAt line).map (fun ds => (digitsToNat ds : Int))
  else none

/-- Specification-side reading of the surfaced files-fixed count as the
code computes it: the value of the last matching line, default 0. -/
def lastNumFileMatch (out : List Char) : Int :=
  (((pySplit ("\n").data out).filterMap lineMatchValue).getLast?).getD 0

/-- The claim wording: the value of the first matching line, default 0. -/
def firstNumFileMatch (out : List Char) : Int :=
  (((pySplit ("\n").data out).filterMap lineMatchValue).head?).getD 0

/-- Declarative leftmost match of the label-then-number pattern: the first
position, scanned left to right, where the anchored pattern matches. -/
def leftmostLabelNum (label out : List Char) : Option (List Char) :=
  (List.range (out.length + 1)).findSome? (fun i => matchLabelNumAt label (out.drop i))

/-- Extra fields produced by a post-processor never collide with the
status field or the post-processor-error field of the base response. -/
def cleanExtraKeys (flds : Fields) : Prop :=
  ∀ kv ∈ flds, kv.1 ≠ ("status").data ∧ kv.1 ≠ ("post_processor_error").data

/-! ### Basic facts about the string primitives -/

theorem firstIdx_isPrefixOf {p s : List Char} {i : Nat}
    (h : firstIdx p s = some i) : p.isPrefixOf (s.drop i) = true := by
  induction s generalizing i with
  | nil =>
    unfold firstIdx at h
    split at h
    · rename_i hp
      cases h
      simpa using hp
    · cases h
  | cons c rest ih =>
    unfold firstIdx at h
    split at h
    · rename_i hp
      cases h
      simpa using hp
    · rcases Option.map_eq_some'.mp h with ⟨j, hj, rfl⟩
      simpa using ih hj

theorem firstIdx_le_length {p s : List Char} {i : Nat}
    (h : firstIdx p s = some i) : i ≤ s.length := by
  induction s generalizing i with
  | nil =>
    unfold firstIdx at h
    split at h
    · cases h; simp
    · cases h
  | cons c rest ih =>
    unfold firstIdx at h
    split at h
    · cases h; simp
    · rcases Option.map_eq_some'.mp h with ⟨j, hj, rfl⟩
      have := ih hj
      simpa using Nat.succ_le_succ this

theorem firstIdx_add_pat_le {p s : List Char} {i : Nat}
    (h : firstIdx p s = some i) : i + p.length ≤ s.length := by
  have hpre := firstIdx_isPrefixOf h
  have hp : p <+: s.drop i := List.isPrefixOf_iff_prefix.mp hpre
  have hlen : p.length ≤ (s.drop i).length := hp.length_le
  have hi : i ≤ s.length := firstIdx_le_length h
  rw [List.length_drop] at hlen
  omega

/-- Minimality: nothing before the reported first index is an occurrence. -/
theorem firstIdx_min {p s : List Char} {i : Nat}
    (h : firstIdx p s = some i) :
    ∀ j, j < i → p.isPrefixOf (s.drop j) = false := by
  induction s generalizing i with
  | nil =>
    unfold firstIdx at h
    split at h
    · cases h; intro j hj; omega
    · cases h
  | cons c rest ih =>
    unfold firstIdx at h
    split at h
    · cases h; intro j hj; omega
    · rename_i hp
      rcases Option.map_eq_some'.mp h with ⟨j0, hj0, rfl⟩
      intro j hj
      cases j with
      | zero => simpa using eq_false_of_ne_true hp
      | succ j' =>
        have := ih hj0 j' (by omega)
        simpa using this

theorem firstIdx_none_not_occurs {p s : List Char}
    (h : firstIdx p s = none) :
    ∀ j, p.isPrefixOf (s.drop j) = false := by
  induction s with
  | nil =>
    unfold firstIdx at h
    split at h
    · cases h
    · rename_i hp
      intro j
      simpa using eq_false_of_ne_true hp
  | cons c rest ih =>
    unfold firstIdx at h
    split at h
    · cases h
    · rename_i hp
      have hr : firstIdx p rest = none := by
        cases hfr : firstIdx p rest with
        | none => rfl
        | some k => rw [hfr] at h; simp at h
      intro j
      cases j with
      | zero => simpa using eq_false_of_ne_true hp
      | succ j' => simpa using ih hr j'

/-- Fuel irrelevance for the split worker: any fuel above the string length
computes the same answer. -/
theorem pySplitF_fuel {p : List Char} (hp : p ≠ []) :
    ∀ f g s, s.length < f → s.length < g →
      pySplitF p f s = pySplitF p g s := by
  intro f
  induction f with
  | zero => intro g s hf; omega
  | succ f ih =>
    intro g s hf hg
    cases g with
    | zero => omega
    | succ g =>
      unfold pySplitF
      cases hfi : firstIdx p s with
      | none => rfl
      | some i =>
        have hle := firstIdx_add_pat_le hfi
        have hplen : 0 < p.length := List.length_pos.mpr hp
        have hdrop : (s.drop (i + p.length)).length < s.length := by
          rw [List.length_drop]; omega
        simp only []
        rw [ih g (s.drop (i + p.length)) (by omega) (by omega)]

/-- One-step unfolding of pySplit at its leftmost occurrence. -/
theorem pySplit_eq (p s : List Char) (hp : p ≠ []) :
    pySplit p s =
      match firstIdx p s with
      | none => [s]
      | some i => s.take i :: pySplit p (s.drop (i + p.length)) := by
  show pySplitF p (s.length + 1) s = _
  unfold pySplitF
  cases hfi : firstIdx p s with
  | none => rfl
  | some i =>
    have hle := firstIdx_add_pat_le hfi
    have hplen : 0 < p.length := List.length_pos.mpr hp
    simp only []
    rw [pySplitF_fuel hp s.length (((s.drop (i + p.length)).length) + 1)
      (s.drop (i + p.length)) (by rw [List.length_drop]; omega) (by omega)]
    rfl

/-- The result of a split is never empty. -/
theorem pySplit_ne_nil (p s : List Char) (hp : p ≠ []) :
    pySplit p s ≠ [] := by
  rw [pySplit_eq p s hp]
  cases firstIdx p s <;> simp

/-- The first piece of a split is the text before the leftmost occurrence. -/
theorem pySplit_head (p s : List Char) (hp : p ≠ []) :
    pyIdx (pySplit p s) 0 = upToPat p s := by
  rw [pySplit_eq p s hp]
  unfold upToPat
  cases firstIdx p s <;> simp [pyIdx]

/-- The second piece of a split, when the pattern occurs at index i, is the
first piece of the split of the remainder. -/
theorem pySplit_second (p s : List Char) (hp : p ≠ []) {i : Nat}
    (h : firstIdx p s = some i) :
    pyIdx (pySplit p s) 1 = upToPat p (s.drop (i + p.length)) := by
  rw [pySplit_eq p s hp, h]
  simp only [pyIdx, List.getD]
  have := pySplit_head p (s.drop (i + p.length)) hp
  simpa [pyIdx] using this

/-! ### Dictionary lemmas -/

theorem lookup_map_overwrite {d : Fields} {k k' : List Char} {v : JVal}
    (h : k' ≠ k) :
    List.lookup k (d.map (fun p => if p.1 == k' then (k', v) else p))
      = List.lookup k d := by
  have hkk : (k == k') = false := beq_eq_false_iff_ne.mpr (fun hc => h hc.symm)
  induction d with
  | nil => rfl
  | cons p d ih =>
    simp only [List.map_cons]
    by_cases hpk : p.1 = k'
    · rw [if_pos (by simp [hpk])]
      simp only [List.lookup, hkk, hpk ▸ hkk]
      exact ih
    · rw [if_neg (by simpa using hpk)]
      simp only [List.lookup]
      cases hk : (k == p.1) with
      | true => rfl
      | false => exact ih

theorem lookup_append_single_ne {d : Fields} {k k' : List Char} {v : JVal}
    (h : k' ≠ k) : List.lookup k (d ++ [(k', v)]) = List.lookup k d := by
  have hkk : (k == k') = false := beq_eq_false_iff_ne.mpr (fun hc => h hc.symm)
  induction d with
  | nil => simp [List.lookup, hkk]
  | cons p d ih =>
    simp only [List.cons_append, List.lookup]
    cases hk : (k == p.1) with
    | true => rfl
    | false => exact ih

theorem lookup_setKey_ne {d : Fields} {k k' : List Char} {v : JVal}
    (h : k' ≠ k) : List.lookup k (setKey d k' v) = List.lookup k d := by
  unfold setKey
  split
  · exact lookup_map_overwrite h
  · exact lookup_append_single_ne h

theorem lookup_dictUpdate_of_clean {e : Fields} :
    ∀ {d : Fields} {k : List Char}, (∀ p ∈ e, p.1 ≠ k) →
      List.lookup k (dictUpdate d e) = List.lookup k d := by
  induction e with
  | nil => intro d k _; rfl
  | cons p e ih =>
    intro d k hclean
    have h1 : p.1 ≠ k := hclean p (by simp)
    have h2 : ∀ q ∈ e, q.1 ≠ k := fun q hq => hclean q (by simp [hq])
    show List.lookup k (dictUpdate (setKey d p.1 p.2) e) = List.lookup k d
    rw [ih h2, lookup_setKey_ne h1]

/-! ### Single-character patterns and line counting -/

theorem singleton_isPrefixOf_iff {c : Char} {l : List Char} :
    ([c].isPrefixOf l = true) ↔ ∃ t, l = c :: t := by
  cases l with
  | nil => simp [List.isPrefixOf]
  | cons a t =>
    simp only [List.isPrefixOf, Bool.and_true]
    constructor
    · intro h
      exact ⟨t, by rw [(beq_iff_eq.mp (by simpa using h) : c = a)]⟩
    · rintro ⟨t', ht⟩
      cases ht
      simp

theorem mem_of_prefix_drop {c : Char} {s : List Char} {j : Nat}
    (h : [c].isPrefixOf (s.drop j) = true) : c ∈ s := by
  rcases singleton_isPrefixOf_iff.mp h with ⟨t, ht⟩
  have : c ∈ s.drop j := by rw [ht]; simp
  exact List.mem_of_mem_drop this

theorem exists_prefix_drop_of_mem {c : Char} {s : List Char}
    (h : c ∈ s) : ∃ j, [c].isPrefixOf (s.drop j) = true := by
  induction s with
  | nil => cases h
  | cons a t ih =>
    rcases List.mem_cons.mp h with rfl | hmem
    · exact ⟨0, by simp [List.isPrefixOf]⟩
    · rcases ih hmem with ⟨j, hj⟩
      exact ⟨j + 1, by simpa using hj⟩

theorem count_eq_zero_of_firstIdx_none {c : Char} {s : List Char}
    (h : firstIdx [c] s = none) : s.count c = 0 := by
  rw [List.count_eq_zero]
  intro hc
  rcases exists_prefix_drop_of_mem hc with ⟨j, hj⟩
  have := firstIdx_none_not_occurs h j
  rw [hj] at this
  cases this

theorem drop_of_firstIdx_single {c : Char} {s : List Char} {i : Nat}
    (h : firstIdx [c] s = some i) : s.drop i = c :: s.drop (i + 1) := by
  rcases singleton_isPrefixOf_iff.mp (firstIdx_isPrefixOf h) with ⟨t, ht⟩
  have hdd : s.drop (i + 1) = (s.drop i).drop 1 := by
    rw [List.drop_drop]
  rw [hdd, ht]
  rfl

theorem occurs_in_take {c : Char} {s : List Char} {n j : Nat}
    (h : [c].isPrefixOf ((s.take n).drop j) = true) :
    [c].isPrefixOf (s.drop j) = true ∧ j < n := by
  rcases singleton_isPrefixOf_iff.mp h with ⟨t, ht⟩
  rw [List.drop_take] at ht
  have hlt : j < n := by
    by_contra hge
    have : n - j = 0 := by omega
    rw [this] at ht
    simp at ht
  constructor
  · obtain ⟨m, hm⟩ : ∃ m, n - j = m + 1 := ⟨n - j - 1, by omega⟩
    cases hd : s.drop j with
    | nil => rw [hd, hm] at ht; simp at ht
    | cons b u =>
      rw [hd, hm, List.take_succ_cons] at ht
      injection ht with h1 h2
      rw [← h1]
      simp [List.isPrefixOf]
  · exact hlt

theorem count_take_firstIdx {c : Char} {s : List Char} {i : Nat}
    (h : firstIdx [c] s = some i) : (s.take i).count c = 0 := by
  rw [List.count_eq_zero]
  intro hc
  rcases exists_prefix_drop_of_mem hc with ⟨j, hj⟩
  rcases occurs_in_take hj with ⟨hp, hlt⟩
  have := firstIdx_min h j hlt
  rw [hp] at this
  cases this

/-- The number of pieces a newline split produces is one more than the
number of newline characters. -/
theorem pySplit_nl_length (s : List Char) :
    (pySplit ("\n").data s).length = 1 + s.count '\n' := by
  have key : ∀ n (s : List Char), s.length ≤ n →
      (pySplit ("\n").data s).length = 1 + s.count '\n' := by
    intro n
    induction n with
    | zero =>
      intro s hs
      have : s = [] := List.length_eq_zero.mp (Nat.le_zero.mp hs)
      subst this
      rfl
    | succ n ih =>
      intro s hs
      rw [pySplit_eq _ _ (by decide)]
      cases hfi : firstIdx ("\n").data s with
      | none =>
        have h0 : s.count '\n' = 0 := count_eq_zero_of_firstIdx_none hfi
        simp [h0]
      | some i =>
        have hle := firstIdx_add_pat_le hfi
        have hlen1 : ("\n").data.length = 1 := rfl
        rw [hlen1] at hle
        have hdec : (s.drop (i + 1)).length ≤ n := by
          rw [List.length_drop]; omega
        have hrec := ih (s.drop (i + 1)) hdec
        have hdi : s.drop i = '\n' :: s.drop (i + 1) :=
          drop_of_firstIdx_single hfi
        have hcount : s.count '\n' =
            (s.take i).count '\n' + (s.drop i).count '\n' := by
          conv_lhs => rw [← List.take_append_drop i s]
          rw [List.count_append]
        have htake : (s.take i).count '\n' = 0 := count_take_firstIdx hfi
        have hdropc : (s.drop i).count '\n' = 1 + (s.drop (i + 1)).count '\n' := by
          rw [hdi, List.count_cons]
          simp
          omega
        simp only [List.length_cons]
        show (pySplit ("\n").data (s.drop (i + 1))).length + 1
          = 1 + List.count '\n' s
        rw [hrec]
        omega
  exact key s.length s (Nat.le_refl _)

/-! ### Trailing newline and last piece of a split -/

theorem getLast?_drop_of_lt {s : List Char} {k : Nat} (hk : k < s.length) :
    (s.drop k).getLast? = s.getLast? := by
  induction s generalizing k with
  | nil => simp at hk
  | cons a t ih =>
    cases k with
    | zero => simp
    | succ k =>
      simp only [List.drop_succ_cons]
      have hk' : k < t.length := by simpa using hk
      rw [ih hk']
      cases t with
      | nil => simp at hk'
      | cons b t' => rw [List.getLast?_cons_cons]

theorem mem_of_getLast?_eq {c : Char} {s : List Char}
    (h : s.getLast? = some c) : c ∈ s := by
  induction s with
  | nil => simp at h
  | cons a t ih =>
    cases t with
    | nil =>
      have : a = c := by simpa using h
      simp [this]
    | cons b t' =>
      rw [List.getLast?_cons_cons] at h
      exact List.mem_cons_of_mem a (ih h)

/-- A string ending in a newline splits into pieces whose last piece is
empty. -/
theorem pySplit_nl_getLast {s : List Char} (h : s.getLast? = some '\n') :
    (pySplit ("\n").data s).getLast? = some [] := by
  have key : ∀ n (s : List Char), s.length ≤ n → s.getLast? = some '\n' →
      (pySplit ("\n").data s).getLast? = some [] := by
    intro n
    induction n with
    | zero =>
      intro s hs hlast
      have : s = [] := List.length_eq_zero.mp (Nat.le_zero.mp hs)
      subst this
      simp at hlast
    | succ n ih =>
      intro s hs hlast
      rw [pySplit_eq _ _ (by decide)]
      cases hfi : firstIdx ("\n").data s with
      | none =>
        exfalso
        rcases exists_prefix_drop_of_mem (mem_of_getLast?_eq hlast) with ⟨j, hj⟩
        have := firstIdx_none_not_occurs hfi j
        rw [hj] at this
        cases this
      | some i =>
        have hle := firstIdx_add_pat_le hfi
        have hlen1 : ("\n").data.length = 1 := rfl
        rw [hlen1] at hle
        by_cases hend : i + 1 = s.length
        · have hdrop : s.drop (i + 1) = [] := by
            apply List.drop_eq_nil_of_le
            omega
          show (s.take i :: pySplit ("\n").data (s.drop (i + 1))).getLast? = some []
          rw [hdrop]
          rfl
        · have hlt : i + 1 < s.length := by omega
          have hdec : (s.drop (i + 1)).length ≤ n := by
            rw [List.length_drop]; omega
          have htail : (s.drop (i + 1)).getLast? = some '\n' := by
            rw [getLast?_drop_of_lt hlt]; exact hlast
          have hrec := ih (s.drop (i + 1)) hdec htail
          show (s.take i :: pySplit ("\n").data (s.drop (i + 1))).getLast? = some []
          have hne := pySplit_ne_nil ("\n").data (s.drop (i + 1)) (by decide)
          cases hl : pySplit ("\n").data (s.drop (i + 1)) with
          | nil => cases hne hl
          | cons y ys =>
            rw [hl] at hrec
            rw [List.getLast?_cons_cons]
            exact hrec
  exact key s.length s (Nat.le_refl _) h

/-- For content ending in a newline whose interior pieces are all
non-empty, the piece count is the non-empty piece count plus one. -/
theorem pySplit_nl_nonEmpty_count {s : List Char}
    (hend : s.getLast? = some '\n')
    (hinterior : ∀ l ∈ (pySplit ("\n").data s).dropLast, l ≠ []) :
    (pySplit ("\n").data s).length
      = ((pySplit ("\n").data s).filter (fun l => !l.isEmpty)).length + 1 := by
  have hlast := pySplit_nl_getLast hend
  have hne := pySplit_ne_nil ("\n").data s (by decide)
  obtain ⟨ini, hini, hclean⟩ :
      ∃ ini, pySplit ("\n").data s = ini ++ [[]] ∧ ∀ l ∈ ini, l ≠ [] := by
    refine ⟨(pySplit ("\n").data s).dropLast, ?_, hinterior⟩
    have hgl : (pySplit ("\n").data s).getLast hne = [] := by
      have heq := List.getLast?_eq_getLast (pySplit ("\n").data s) hne
      rw [heq] at hlast
      exact Option.some_injective _ hlast.symm |>.symm
    conv_lhs => rw [← List.dropLast_append_getLast hne, hgl]
  rw [hini, List.length_append, List.filter_append]
  have hfini : ini.filter (fun l => !l.isEmpty) = ini := by
    apply List.filter_eq_self.mpr
    intro l hl
    simpa using hclean l hl
  rw [hfini]
  simp

/-! ### Fence extraction -/

theorem firstIdx_isSome_of_occurs {p s : List Char} {j : Nat}
    (h : p.isPrefixOf (s.drop j) = true) : (firstIdx p s).isSome := by
  cases hfi : firstIdx p s with
  | some i => rfl
  | none =>
    have := firstIdx_none_not_occurs hfi j
    rw [h] at this
    cases this

/-- The piece before the first occurrence has no occurrence itself. -/
theorem firstIdx_upToPat (p s : List Char) (hp : p ≠ []) :
    firstIdx p (upToPat p s) = none := by
  unfold upToPat
  cases hfi : firstIdx p s with
  | none => exact hfi
  | some i =>
    cases hfi2 : firstIdx p (s.take i) with
    | none => rfl
    | some j =>
      exfalso
      have hpre := firstIdx_isPrefixOf hfi2
      have h1 : p <+: ((s.take i).drop j) := List.isPrefixOf_iff_prefix.mp hpre
      rw [List.drop_take] at h1
      have h2 : p <+: (s.drop j) := h1.trans ( List.take_prefix _ _)
      have hlen := h1.length_le
      rw [List.length_take] at hlen
      have hplen : 0 < p.length := List.length_pos.mpr hp
      have hj : j < i := by omega
      have hmin := firstIdx_min hfi j hj
      have h2' : p.isPrefixOf (s.drop j) = true :=
        List.isPrefixOf_iff_prefix.mpr h2
      rw [h2'] at hmin
      cases hmin

theorem upToPat_idem (p s : List Char) (hp : p ≠ []) :
    upToPat p (upToPat p s) = upToPat p s := by
  conv_lhs => rw [upToPat, firstIdx_upToPat p s hp]

/-- A php fence occurrence is in particular a bare fence occurrence. -/
theorem pyContains_php_imp {r : List Char}
    (h : pyContains ("```php").data r = true) :
    pyContains ("```").data r = true := by
  unfold pyContains at *
  cases hfi : firstIdx ("```php").data r with
  | none => rw [hfi] at h; simp at h
  | some i =>
    have hpre := firstIdx_isPrefixOf hfi
    have h1 : ("```php").data <+: r.drop i := List.isPrefixOf_iff_prefix.mp hpre
    have h2 : ("```").data <+: r.drop i :=
      (show ("```").data <+: ("```php").data by decide).trans h1
    simpa using firstIdx_isSome_of_occurs ( List.isPrefixOf_iff_prefix.mpr h2)

/-! ### Fold and search characterizations -/

theorem foldl_last_match {α : Type} (g : List Char → Option α) :
    ∀ (ls : List (List Char)) (a : α),
      ls.foldl (fun acc l => match g l with | some v => v | none => acc) a
        = ((ls.filterMap g).getLast?).getD a := by
  intro ls
  induction ls with
  | nil => intro a; rfl
  | cons l ls ih =>
    intro a
    rw [List.foldl_cons, List.filterMap_cons]
    cases hg : g l with
    | none =>
      simp only [hg]
      exact ih a
    | some v =>
      simp only [hg]
      rw [ih v]
      cases hfm : ls.filterMap g with
      | nil => simp
      | cons x xs =>
        rw [List.getLast?_cons_cons]
        cases hgl : (x :: xs).getLast? with
        | none => simp at hgl
        | some w => simp

theorem findSome?_map_succ (f : Nat → Option (List Char)) (l : List Nat) :
    (l.map Nat.succ).findSome? f = l.findSome? (fun i => f (i + 1)) := by
  induction l with
  | nil => rfl
  | cons a l ih =>
    simp only [List.map_cons, List.findSome?_cons]
    cases f (a + 1) <;> simp [ih]

/-- reSearch computes the declarative leftmost match. -/
theorem reSearch_eq_findSome (m : List Char → Option (List Char)) :
    ∀ s, reSearch m s
      = (List.range (s.length + 1)).findSome? (fun i => m (s.drop i)) := by
  intro s
  induction s with
  | nil =>
    show m [] = List.findSome? (fun i => m (List.drop i [])) (List.range 1)
    rw [show List.range 1 = [0] from rfl]
    cases hm : m [] <;> simp [List.findSome?_cons, hm]
  | cons c rest ih =>
    rw [show (c :: rest).length + 1 = (rest.length + 1) + 1 from rfl,
        List.range_succ_eq_map]
    simp only [List.findSome?_cons, List.drop_zero]
    unfold reSearch
    cases hm : m (c :: rest) with
    | some g => rfl
    | none =>
      rw [ih, findSome?_map_succ]
      rfl

/-! ### The registered post-processors never raise and never clash -/

theorem process_phpqa_result_clean (b : BridgeFn) (j : JsonParseFn)
    (r : RawResult) :
    ∃ flds, process_phpqa_result b j r = .ok flds ∧ cleanExtraKeys flds := by
  unfold process_phpqa_result
  cases phpqaReport b j with
  | ok v =>
    refine ⟨_, rfl, ?_⟩
    intro kv hkv
    have hkey := List.mem_map_of_mem Prod.fst hkv
    exact (by decide : ∀ k ∈ [("phpqa_report").data, ("report_files").data],
        k ≠ ("status").data ∧ k ≠ ("post_processor_error").data) kv.1 hkey
  | error e =>
    refine ⟨_, rfl, ?_⟩
    intro kv hkv
    have hkey := List.mem_map_of_mem Prod.fst hkv
    exact (by decide : ∀ k ∈ [("phpqa_report").data],
        k ≠ ("status").data ∧ k ≠ ("post_processor_error").data) kv.1 hkey

theorem csFixPP_clean (b : BridgeFn) (j : JsonParseFn) (r : RawResult) :
    ∃ flds, csFixPP b j r = .ok flds ∧ cleanExtraKeys flds := by
  refine ⟨_, rfl, ?_⟩
  intro kv hkv
  have hkey := List.mem_map_of_mem Prod.fst hkv
  exact (by decide : ∀ k ∈ [("files_fixed").data, ("message").data],
      k ≠ ("status").data ∧ k ≠ ("post_processor_error").data) kv.1 hkey

theorem testPP_clean (b : BridgeFn) (j : JsonParseFn) (r : RawResult) :
    ∃ flds, testPP b j r = .ok flds ∧ cleanExtraKeys flds := by
  refine ⟨_, rfl, ?_⟩
  intro kv hkv
  have hkey := List.mem_map_of_mem Prod.fst hkv
  exact (by decide : ∀ k ∈ [("tests_run").data, ("assertions").data, ("failures").data, ("success").data],
      k ≠ ("status").data ∧ k ≠ ("post_processor_error").data) kv.1 hkey

theorem process_phpcs_result_clean (b : BridgeFn) (j : JsonParseFn)
    (r : RawResult) :
    ∃ flds, process_phpcs_result b j r = .ok flds ∧ cleanExtraKeys flds := by
  unfold process_phpcs_result
  cases phpcsCollected b j with
  | ok c =>
    refine ⟨_, rfl, ?_⟩
    intro kv hkv
    have hkey := List.mem_map_of_mem Prod.fst hkv
    exact (by decide : ∀ k ∈ [("phpcs_issues").data, ("totals").data, ("ready_for_ai_fixing").data],
        k ≠ ("status").data ∧ k ≠ ("post_processor_error").data) kv.1 hkey
  | error e =>
    refine ⟨_, rfl, ?_⟩
    intro kv hkv
    have hkey := List.mem_map_of_mem Prod.fst hkv
    exact (by decide : ∀ k ∈ [("phpcs_issues").data, ("error").data],
        k ≠ ("status").data ∧ k ≠ ("post_processor_error").data) kv.1 hkey

theorem process_phpcs_detailed_clean (b : BridgeFn) (j : JsonParseFn)
    (r : RawResult) :
    ∃ flds, process_phpcs_detailed b j r = .ok flds ∧ cleanExtraKeys flds := by
  unfold process_phpcs_detailed
  cases aiDetailedCollected j r with
  | ok c =>
    refine ⟨_, rfl, ?_⟩
    intro kv hkv
    have hkey := List.mem_map_of_mem Prod.fst hkv
    exact (by decide : ∀ k ∈ [("phpcs_issues").data, ("totals").data],
        k ≠ ("status").data ∧ k ≠ ("post_processor_error").data) kv.1 hkey
  | error e =>
    refine ⟨_, rfl, ?_⟩
    intro kv hkv
    have hkey := List.mem_map_of_mem Prod.fst hkv
    exact (by decide : ∀ k ∈ [("error").data],
        k ≠ ("status").data ∧ k ≠ ("post_processor_error").data) kv.1 hkey

/-! ### Engine lemmas -/

theorem lookup_status_base (ts name cmd : List Char) (r : RawResult) :
    List.lookup ("status").data (baseResponseFields ts name cmd r)
      = some (.s (if r.exitCode == 0 then ("success").data
          else ("completed_with_errors").data)) := rfl

theorem lookup_ppe_base (ts name cmd : List Char) (r : RawResult) :
    List.lookup ("post_processor_error").data
      (baseResponseFields ts name cmd r) = none := rfl

theorem lookup_status_aiBase (ts name : List Char) (r : RawResult) :
    List.lookup ("status").data (aiBaseResponseFields ts name r)
      = some (.s (if r.exitCode == 0 then ("success").data
          else ("completed_with_errors").data)) := rfl

theorem lookup_ppe_aiBase (ts name : List Char) (r : RawResult) :
    List.lookup ("post_processor_error").data
      (aiBaseResponseFields ts name r) = none := rfl

/-- The status field reports success exactly for exit code zero. -/
theorem lookup_status_success_iff {r : RawResult} (d : Fields)
    (hd : List.lookup ("status").data d
      = some (.s (if r.exitCode == 0 then ("success").data
          else ("completed_with_errors").data))) :
    (List.lookup ("status").data d = some (.s ("success").data)
      ↔ r.exitCode = 0) := by
  rw [hd]
  cases he : (r.exitCode == 0) with
  | true =>
    have h0 : r.exitCode = 0 := by simpa using he
    simp [he, h0]
  | false =>
    have h0 : r.exitCode ≠ 0 := by simpa using he
    simp only [he, Bool.false_eq_true, if_false]
    constructor
    · intro hcontra
      simp only [Option.some.injEq, JVal.s.injEq] at hcontra
      exact absurd hcontra (by decide)
    · intro hc
      exact absurd hc h0

theorem executeCommand_clean (cfg : CommandConfig) (bridge : BridgeFn)
    (jsonParse : JsonParseFn) (ts : List Char) (r : RawResult)
    (hbr : bridge (execScript cfg.command) = .completed r)
    (hclean : cfg.post_processor = none ∨
      ∃ pp, cfg.post_processor = some pp ∧
        ∀ b j rr, ∃ flds, pp b j rr = .ok flds ∧ cleanExtraKeys flds) :
    (executeCommand cfg bridge jsonParse ts).status = 200 ∧
    List.lookup ("status").data (executeCommand cfg bridge jsonParse ts).body
      = some (.s (if r.exitCode == 0 then ("success").data
          else ("completed_with_errors").data)) ∧
    List.lookup ("post_processor_error").data
      (executeCommand cfg bridge jsonParse ts).body = none := by
  rcases hclean with hnone | ⟨pp, hpp, hcl⟩
  · simp only [executeCommand, hbr, hnone]
    refine ⟨trivial, ?_, ?_⟩
    · exact lookup_status_base ts cfg.name cfg.command r
    · exact lookup_ppe_base ts cfg.name cfg.command r
  · obtain ⟨flds, hok, hcl'⟩ := hcl bridge jsonParse r
    simp only [executeCommand, hbr, hpp, hok]
    refine ⟨trivial, ?_, ?_⟩
    · rw [lookup_dictUpdate_of_clean (fun p hp => (hcl' p hp).1)]
      exact lookup_status_base ts cfg.name cfg.command r
    · rw [lookup_dictUpdate_of_clean (fun p hp => (hcl' p hp).2)]
      exact lookup_ppe_base ts cfg.name cfg.command r

theorem aiExecuteCommandCfg_clean (name : List Char) (cfg : AiCmdConfig)
    (bridge : BridgeFn) (jsonParse : JsonParseFn) (ts : List Char)
    (r : RawResult)
    (hbr : bridge (execScript cfg.command) = .completed r)
    (hclean : cfg.post_processor = none ∨
      ∃ pp, cfg.post_processor = some pp ∧
        ∀ b j rr, ∃ flds, pp b j rr = .ok flds ∧ cleanExtraKeys flds) :
    (aiExecuteCommandCfg name cfg bridge jsonParse ts).status = 200 ∧
    List.lookup ("status").data
      (aiExecuteCommandCfg name cfg bridge jsonParse ts).body
      = some (.s (if r.exitCode == 0 then ("success").data
          else ("completed_with_errors").data)) ∧
    List.lookup ("post_processor_error").data
      (aiExecuteCommandCfg name cfg bridge jsonParse ts).body = none := by
  rcases hclean with hnone | ⟨pp, hpp, hcl⟩
  · simp only [aiExecuteCommandCfg, hbr, hnone]
    refine ⟨trivial, ?_, ?_⟩
    · exact lookup_status_aiBase ts name r
    · exact lookup_ppe_aiBase ts name r
  · obtain ⟨flds, hok, hcl'⟩ := hcl bridge jsonParse r
    simp only [aiExecuteCommandCfg, hbr, hpp, hok]
    refine ⟨trivial, ?_, ?_⟩
    · rw [lookup_dictUpdate_of_clean (fun p hp => (hcl' p hp).1)]
      exact lookup_status_aiBase ts name r
    · rw [lookup_dictUpdate_of_clean (fun p hp => (hcl' p hp).2)]
      exact lookup_ppe_aiBase ts name r

/-- A raising post-processor in container-api.py is caught: the base
response is kept and the message appended under post_processor_error. -/
theorem executeCommand_pp_error (cfg : CommandConfig) (pp : PostProc)
    (bridge : BridgeFn) (jsonParse : JsonParseFn) (ts : List Char)
    (r : RawResult) (e : List Char)
    (hpp : cfg.post_processor = some pp)
    (hbr : bridge (execScript cfg.command) = .completed r)
    (herr : pp bridge jsonParse r = .error e) :
    executeCommand cfg bridge jsonParse ts = ⟨200,
      baseResponseFields ts cfg.name cfg.command r
        ++ [(("post_processor_error").data, .s e)]⟩ := by
  simp only [executeCommand, hbr, hpp, herr]
  rfl

/-- A raising post-processor in container-api-ai.py is not caught locally:
the outer handler answers 500 and the base response is discarded. -/
theorem aiExecuteCommandCfg_pp_error (name : List Char) (cfg : AiCmdConfig)
    (pp : PostProc) (bridge : BridgeFn) (jsonParse : JsonParseFn)
    (ts : List Char) (r : RawResult) (e : List Char)
    (hpp : cfg.post_processor = some pp)
    (hbr : bridge (execScript cfg.command) = .completed r)
    (herr : pp bridge jsonParse r = .error e) :
    aiExecuteCommandCfg name cfg bridge jsonParse ts
      = ⟨500, [(("error").data, .s e)]⟩ := by
  simp only [aiExecuteCommandCfg, hbr, hpp, herr]

/-! ## Claims -/

/-- C1: for every registered command of either server, when the execution
bridge completes with exit code e the request is answered HTTP 200, and the
status field of the body is success exactly when e is zero and no
post-processor error occurred (no post_processor_error field attached),
and completed_with_errors otherwise; in particular a non-zero tool exit
code never produces an HTTP error status code. -/
theorem c1_registered_command_status :
    (∀ e ∈ COMMANDS, ∀ (bridge : BridgeFn) (jsonParse : JsonParseFn)
        (r : RawResult) (ts : List Char),
      bridge (execScript e.2.command) = .completed r →
      (executeCommand e.2 bridge jsonParse ts).status = 200 ∧
      (List.lookup ("status").data
          (executeCommand e.2 bridge jsonParse ts).body
          = some (.s ("success").data)
        ↔ (r.exitCode = 0 ∧
            List.lookup ("post_processor_error").data
              (executeCommand e.2 bridge jsonParse ts).body = none)) ∧
      (¬(r.exitCode = 0 ∧
            List.lookup ("post_processor_error").data
              (executeCommand e.2 bridge jsonParse ts).body = none) →
        List.lookup ("status").data
          (executeCommand e.2 bridge jsonParse ts).body
          = some (.s ("completed_with_errors").data))) ∧
    (∀ e ∈ AI_SERVER_COMMANDS, ∀ (bridge : BridgeFn) (jsonParse : JsonParseFn)
        (r : RawResult) (ts : List Char),
      bridge (execScript e.2.command) = .completed r →
      (aiExecuteCommandCfg e.1 e.2 bridge jsonParse ts).status = 200 ∧
      (List.lookup ("status").data
          (aiExecuteCommandCfg e.1 e.2 bridge jsonParse ts).body
          = some (.s ("success").data)
        ↔ (r.exitCode = 0 ∧
            List.lookup ("post_processor_error").data
              (aiExecuteCommandCfg e.1 e.2 bridge jsonParse ts).body = none)) ∧
      (¬(r.exitCode = 0 ∧
            List.lookup ("post_processor_error").data
              (aiExecuteCommandCfg e.1 e.2 bridge jsonParse ts).body = none) →
        List.lookup ("status").data
          (aiExecuteCommandCfg e.1 e.2 bridge jsonParse ts).body
          = some (.s ("completed_with_errors").data))) := by
  constructor
  · have step : ∀ (cfg : CommandConfig) (bridge : BridgeFn)
        (jsonParse : JsonParseFn) (r : RawResult) (ts : List Char),
        bridge (execScript cfg.command) = .completed r →
        (cfg.post_processor = none ∨
          ∃ pp, cfg.post_processor = some pp ∧
            ∀ b j rr, ∃ flds, pp b j rr = .ok flds ∧ cleanExtraKeys flds) →
        (executeCommand cfg bridge jsonParse ts).status = 200 ∧
        (List.lookup ("status").data
            (executeCommand cfg bridge jsonParse ts).body
            = some (.s ("success").data)
          ↔ (r.exitCode = 0 ∧
              List.lookup ("post_processor_error").data
                (executeCommand cfg bridge jsonParse ts).body = none)) ∧
        (¬(r.exitCode = 0 ∧
              List.lookup ("post_processor_error").data
                (executeCommand cfg bridge jsonParse ts).body = none) →
          List.lookup ("status").data
            (executeCommand cfg bridge jsonParse ts).body
            = some (.s ("completed_with_errors").data)) := by
      intro cfg bridge jsonParse r ts hbr hclean
      obtain ⟨h200, hstat, hppe⟩ :=
        executeCommand_clean cfg bridge jsonParse ts r hbr hclean
      refine ⟨h200, ?_, ?_⟩
      · rw [hppe]
        simpa using lookup_status_success_iff _ hstat
      · intro hn
        rw [hppe] at hn
        have hne : r.exitCode ≠ 0 := fun h0 => hn ⟨h0, rfl⟩
        have hb : (r.exitCode == 0) = false := by simpa using hne
        rw [hstat]
        simp [hb]
    intro e hmem
    have hC : COMMANDS = BASE_COMMANDS ++ [(("phpcs-detailed").data,
      { name := ("phpcs-detailed").data,
        command := ("./vendor/bin/phpcs --report=json --standard=PSR12 lib/").data,
        timeout := 60,
        description := ("Run PHPCS and get detailed issues per file for AI fixing").data,
        post_processor := some process_phpcs_result })] := rfl
    rw [hC] at hmem
    simp only [BASE_COMMANDS, List.mem_append, List.mem_cons,
      List.not_mem_nil, or_false] at hmem
    rcases hmem with ((rfl|rfl|rfl|rfl|rfl|rfl|rfl|rfl|rfl|rfl|rfl|rfl)|rfl)
    · exact fun bridge jp r ts hbr => step _ bridge jp r ts hbr
        (Or.inr ⟨_, rfl, fun b j rr => process_phpqa_result_clean b j rr⟩)
    · exact fun bridge jp r ts hbr => step _ bridge jp r ts hbr
        (Or.inr ⟨_, rfl, fun b j rr => csFixPP_clean b j rr⟩)
    · exact fun bridge jp r ts hbr => step _ bridge jp r ts hbr (Or.inl rfl)
    · exact fun bridge jp r ts hbr => step _ bridge jp r ts hbr (Or.inl rfl)
    · exact fun bridge jp r ts hbr => step _ bridge jp r ts hbr (Or.inl rfl)
    · exact fun bridge jp r ts hbr => step _ bridge jp r ts hbr
        (Or.inr ⟨_, rfl, fun b j rr => testPP_clean b j rr⟩)
    · exact fun bridge jp r ts hbr => step _ bridge jp r ts hbr
        (Or.inr ⟨_, rfl, fun b j rr => testPP_clean b j rr⟩)
    · exact fun bridge jp r ts hbr => step _ bridge jp r ts hbr (Or.inl rfl)
    · exact fun bridge jp r ts hbr => step _ bridge jp r ts hbr (Or.inl rfl)
    · exact fun bridge jp r ts hbr => step _ bridge jp r ts hbr (Or.inl rfl)
    · exact fun bridge jp r ts hbr => step _ bridge jp r ts hbr (Or.inl rfl)
    · exact fun bridge jp r ts hbr => step _ bridge jp r ts hbr (Or.inl rfl)
    · exact fun bridge jp r ts hbr => step _ bridge jp r ts hbr
        (Or.inr ⟨_, rfl, fun b j rr => process_phpcs_result_clean b j rr⟩)
  · have step : ∀ (name : List Char) (cfg : AiCmdConfig) (bridge : BridgeFn)
        (jsonParse : JsonParseFn) (r : RawResult) (ts : List Char),
        bridge (execScript cfg.command) = .completed r →
        (cfg.post_processor = none ∨
          ∃ pp, cfg.post_processor = some pp ∧
            ∀ b j rr, ∃ flds, pp b j rr = .ok flds ∧ cleanExtraKeys flds) →
        (aiExecuteCommandCfg name cfg bridge jsonParse ts).status = 200 ∧
        (List.lookup ("status").data
            (aiExecuteCommandCfg name cfg bridge jsonParse ts).body
            = some (.s ("success").data)
          ↔ (r.exitCode = 0 ∧
              List.lookup ("post_processor_error").data
                (aiExecuteCommandCfg name cfg bridge jsonParse ts).body = none)) ∧
        (¬(r.exitCode = 0 ∧
              List.lookup ("post_processor_error").data
                (aiExecuteCommandCfg name cfg bridge jsonParse ts).body = none) →
          List.lookup ("status").data
            (aiExecuteCommandCfg name cfg bridge jsonParse ts).body
            = some (.s ("completed_with_errors").data)) := by
      intro name cfg bridge jsonParse r ts hbr hclean
      obtain ⟨h200, hstat, hppe⟩ :=
        aiExecuteCommandCfg_clean name cfg bridge jsonParse ts r hbr hclean
      refine ⟨h200, ?_, ?_⟩
      · rw [hppe]
        simpa using lookup_status_success_iff _ hstat
      · intro hn
        rw [hppe] at hn
        have hne : r.exitCode ≠ 0 := fun h0 => hn ⟨h0, rfl⟩
        have hb : (r.exitCode == 0) = false := by simpa using hne
        rw [hstat]
        simp [hb]
    intro e hmem
    simp only [AI_SERVER_COMMANDS, List.mem_cons, List.not_mem_nil,
      or_false] at hmem
    rcases hmem with rfl | rfl | rfl
    · exact fun bridge jp r ts hbr => step _ _ bridge jp r ts hbr
        (Or.inr ⟨_, rfl, fun b j rr => process_phpcs_detailed_clean b j rr⟩)
    · exact fun bridge jp r ts hbr => step _ _ bridge jp r ts hbr (Or.inl rfl)
    · exact fun bridge jp r ts hbr => step _ _ bridge jp r ts hbr (Or.inl rfl)

/-- Witness: the registered phpqa command of the v3 server, bridge
completing with exit code 1, answers 200 with status
completed_with_errors. -/
theorem c1_registered_command_status_witness :
    (aiExecuteCommandCfg ("phpqa").data
        { command := ("composer phpqa").data, timeout := 300,
          description := ("Run full PHPQA suite").data, post_processor := none }
        (fun _ => .completed ⟨1, [], []⟩) (fun _ => none) []).status = 200 ∧
    (List.lookup ("status").data
        (aiExecuteCommandCfg ("phpqa").data
          { command := ("composer phpqa").data, timeout := 300,
            description := ("Run full PHPQA suite").data, post_processor := none }
          (fun _ => .completed ⟨1, [], []⟩) (fun _ => none) []).body
        = some (.s ("success").data)
      ↔ ((1 : Int) = 0 ∧
          List.lookup ("post_processor_error").data
            (aiExecuteCommandCfg ("phpqa").data
              { command := ("composer phpqa").data, timeout := 300,
                description := ("Run full PHPQA suite").data,
                post_processor := none }
              (fun _ => .completed ⟨1, [], []⟩) (fun _ => none) []).body
            = none)) ∧
    (¬((1 : Int) = 0 ∧
          List.lookup ("post_processor_error").data
            (aiExecuteCommandCfg ("phpqa").data
              { command := ("composer phpqa").data, timeout := 300,
                description := ("Run full PHPQA suite").data,
                post_processor := none }
              (fun _ => .completed ⟨1, [], []⟩) (fun _ => none) []).body
            = none) →
      List.lookup ("status").data
        (aiExecuteCommandCfg ("phpqa").data
          { command := ("composer phpqa").data, timeout := 300,
            description := ("Run full PHPQA suite").data, post_processor := none }
          (fun _ => .completed ⟨1, [], []⟩) (fun _ => none) []).body
        = some (.s ("completed_with_errors").data)) :=
  c1_registered_command_status.2
    (("phpqa").data,
      { command := ("composer phpqa").data, timeout := 300,
        description := ("Run full PHPQA suite").data, post_processor := none })
    (List.Mem.tail _ (List.Mem.head _))
    (fun _ => .completed ⟨1, [], []⟩) (fun _ => none) ⟨1, [], []⟩ [] rfl

/-- C5 counterexample to the claim as stated: in container-api-ai.py
(lines 143 to 152) the post-processor runs inside the handler try with no
individual catch, so a raising post-processor is answered 500 and the base
response is discarded, not delivered as HTTP 200. -/
theorem c5_ai_post_processor_error_500 :
    (aiExecuteCommandCfg ("x").data
        { command := ("true").data, timeout := 60, description := [],
          post_processor := some (fun _ _ _ => .error ("boom").data) }
        (fun _ => .completed ⟨0, ("out").data, []⟩) (fun _ => none) []).status
      = 500 ∧
    (500 : Nat) ≠ 200 ∧
    List.lookup ("output").data
      (aiExecuteCommandCfg ("x").data
        { command := ("true").data, timeout := 60, description := [],
          post_processor := some (fun _ _ _ => .error ("boom").data) }
        (fun _ => .completed ⟨0, ("out").data, []⟩) (fun _ => none) []).body
      = none :=
  ⟨rfl, by decide, rfl⟩

/-- C5 amended: in container-api.py a raising post-processor is caught
individually, the base response (exit code, output, status) is kept, the
message is attached as post_processor_error, and the answer is HTTP 200; in
container-api-ai.py the exception is not caught around the post-processor,
the base response is discarded and the answer is HTTP 500 with the message
(no registered post-processor of either server actually raises). -/
theorem c5_post_processor_amended :
    (∀ (cfg : CommandConfig) (pp : PostProc) (bridge : BridgeFn)
        (jsonParse : JsonParseFn) (ts : List Char) (r : RawResult)
        (e : List Char),
      cfg.post_processor = some pp →
      bridge (execScript cfg.command) = .completed r →
      pp bridge jsonParse r = .error e →
      (executeCommand cfg bridge jsonParse ts).status = 200 ∧
      List.lookup ("exit_code").data
          (executeCommand cfg bridge jsonParse ts).body = some (.n r.exitCode) ∧
      List.lookup ("output").data
          (executeCommand cfg bridge jsonParse ts).body = some (.s r.stdout) ∧
      List.lookup ("status").data
          (executeCommand cfg bridge jsonParse ts).body
          = some (.s (if r.exitCode == 0 then ("success").data
              else ("completed_with_errors").data)) ∧
      List.lookup ("post_processor_error").data
          (executeCommand cfg bridge jsonParse ts).body = some (.s e)) ∧
    (∀ (name : List Char) (cfg : AiCmdConfig) (pp : PostProc)
        (bridge : BridgeFn) (jsonParse : JsonParseFn) (ts : List Char)
        (r : RawResult) (e : List Char),
      cfg.post_processor = some pp →
      bridge (execScript cfg.command) = .completed r →
      pp bridge jsonParse r = .error e →
      aiExecuteCommandCfg name cfg bridge jsonParse ts
        = ⟨500, [(("error").data, .s e)]⟩) := by
  constructor
  · intro cfg pp bridge jsonParse ts r e hpp hbr herr
    rw [executeCommand_pp_error cfg pp bridge jsonParse ts r e hpp hbr herr]
    exact ⟨rfl, rfl, rfl, rfl, rfl⟩
  · intro name cfg pp bridge jsonParse ts r e hpp hbr herr
    exact aiExecuteCommandCfg_pp_error name cfg pp bridge jsonParse ts r e hpp hbr herr

/-- Witness: a post-processor failing with message boom on a zero-exit run
is reported inside a 200 response of container-api.py with the base intact. -/
theorem c5_post_processor_amended_witness :
    (executeCommand
        { name := ("w").data, command := ("true").data, timeout := 5,
          description := [],
          post_processor := some (fun _ _ _ => .error ("boom").data) }
        (fun _ => .completed ⟨0, ("out").data, []⟩) (fun _ => none) []).status
      = 200 ∧
    List.lookup ("exit_code").data
        (executeCommand
          { name := ("w").data, command := ("true").data, timeout := 5,
            description := [],
            post_processor := some (fun _ _ _ => .error ("boom").data) }
          (fun _ => .completed ⟨0, ("out").data, []⟩) (fun _ => none) []).body
      = some (.n (0 : Int)) ∧
    List.lookup ("output").data
        (executeCommand
          { name := ("w").data, command := ("true").data, timeout := 5,
            description := [],
            post_processor := some (fun _ _ _ => .error ("boom").data) }
          (fun _ => .completed ⟨0, ("out").data, []⟩) (fun _ => none) []).body
      = some (.s ("out").data) ∧
    List.lookup ("status").data
        (executeCommand
          { name := ("w").data, command := ("true").data, timeout := 5,
            description := [],
            post_processor := some (fun _ _ _ => .error ("boom").data) }
          (fun _ => .completed ⟨0, ("out").data, []⟩) (fun _ => none) []).body
      = some (.s (if (0 : Int) == 0 then ("success").data
          else ("completed_with_errors").data)) ∧
    List.lookup ("post_processor_error").data
        (executeCommand
          { name := ("w").data, command := ("true").data, timeout := 5,
            description := [],
            post_processor := some (fun _ _ _ => .error ("boom").data) }
          (fun _ => .completed ⟨0, ("out").data, []⟩) (fun _ => none) []).body
      = some (.s ("boom").data) :=
  c5_post_processor_amended.1
    { name := ("w").data, command := ("true").data, timeout := 5,
      description := [],
      post_processor := some (fun _ _ _ => .error ("boom").data) }
    (fun _ _ _ => .error ("boom").data)
    (fun _ => .completed ⟨0, ("out").data, []⟩) (fun _ => none) []
    ⟨0, ("out").data, []⟩ ("boom").data rfl rfl rfl

/-- A path containing a parent segment has at least two characters. -/
theorem length_ge_two_of_contains_dots {p : List Char}
    (h : pyContains ("..").data p = true) : 2 ≤ p.length := by
  unfold pyContains at h
  cases hfi : firstIdx ("..").data p with
  | none => rw [hfi] at h; simp at h
  | some i =>
    have := firstIdx_add_pat_le hfi
    have h2 : ("..").data.length = 2 := rfl
    omega

/-- C2 counterexample to the claim as stated: AICodeFixingHandler._read_file
does not reject an absolute path; the request reaches the execution bridge
(the path is appended below the app root, so the bridge is invoked). -/
theorem c2_absolute_path_not_rejected_ai :
    (aiReadFile (fun _ => .completed ⟨0, [], []⟩)
        (some (.s ("/etc/passwd").data))).bridgeCalls
      = [("cat /var/www/html/apps-extra/openregister//etc/passwd").data] ∧
    [("cat /var/www/html/apps-extra/openregister//etc/passwd").data]
      ≠ ([] : List (List Char)) :=
  ⟨rfl, by decide⟩

/-- C2 amended: every path containing a parent segment is rejected by all
six file-operation handlers with an invalid-path error and no bridge call;
a path starting with the root marker is rejected the same way by the three
ai_code_fixing.py handlers, while the container-api-ai.py handlers do not
reject it (see the counterexample). -/
theorem c2_path_guard_amended :
    (∀ (p c now : List Char) (bridge : BridgeFn),
      pyContains ("..").data p = true →
      read_file_handler bridge [(("file").data, .s p)]
          = ⟨.ok [(("error").data, .s ("Invalid file path").data)], []⟩ ∧
      write_file_handler bridge
          [(("file").data, .s p), (("content").data, .s c)]
          = ⟨.ok [(("error").data, .s ("Invalid file path").data)], []⟩ ∧
      backup_file_handler now bridge [(("file").data, .s p)]
          = ⟨.ok [(("error").data, .s ("Invalid file path").data)], []⟩ ∧
      aiReadFile bridge (some (.s p))
          = ⟨.ok [(("error").data, .s ("Invalid file path").data)], []⟩ ∧
      aiWriteFile bridge (some (.s p)) (some (.s c))
          = ⟨.ok [(("error").data, .s ("Invalid file path").data)], []⟩ ∧
      aiBackupFile now bridge (some (.s p))
          = ⟨.ok [(("error").data, .s ("Invalid file path").data)], []⟩) ∧
    (∀ (p c now : List Char) (bridge : BridgeFn),
      ("/").data.isPrefixOf p = true →
      read_file_handler bridge [(("file").data, .s p)]
          = ⟨.ok [(("error").data, .s ("Invalid file path").data)], []⟩ ∧
      write_file_handler bridge
          [(("file").data, .s p), (("content").data, .s c)]
          = ⟨.ok [(("error").data, .s ("Invalid file path").data)], []⟩ ∧
      backup_file_handler now bridge [(("file").data, .s p)]
          = ⟨.ok [(("error").data, .s ("Invalid file path").data)], []⟩) := by
  constructor
  · intro p c now bridge h
    have hlen := length_ge_two_of_contains_dots h
    have hise : p.isEmpty = false := by
      cases p with
      | nil => simp at hlen
      | cons a t => rfl
    refine ⟨?_, ?_, ?_, ?_, ?_, ?_⟩
    · simp [read_file_handler, h]
    · simp [write_file_handler, List.lookup, h]
    · simp [backup_file_handler, h]
    · simp [aiReadFile, jTruthy, hise, h]
    · simp [aiWriteFile, jTruthy, hise, h]
    · simp [aiBackupFile, jTruthy, hise, h]
  · intro p c now bridge h
    refine ⟨?_, ?_, ?_⟩
    · simp [read_file_handler, h]
    · simp [write_file_handler, List.lookup, h]
    · simp [backup_file_handler, h]

/-- Witness: the traversal path dot-dot-slash-x and the absolute path
slash-x are rejected with no bridge call. -/
theorem c2_path_guard_amended_witness :
    read_file_handler (fun _ => .completed ⟨0, [], []⟩)
        [(("file").data, .s ("../x").data)]
      = ⟨.ok [(("error").data, .s ("Invalid file path").data)], []⟩ ∧
    backup_file_handler ("t").data (fun _ => .completed ⟨0, [], []⟩)
        [(("file").data, .s ("/x").data)]
      = ⟨.ok [(("error").data, .s ("Invalid file path").data)], []⟩ :=
  ⟨(c2_path_guard_amended.1 ("../x").data ("y").data ("t").data
      (fun _ => .completed ⟨0, [], []⟩) (by decide)).1,
   (c2_path_guard_amended.2 ("/x").data ("y").data ("t").data
      (fun _ => .completed ⟨0, [], []⟩) (by decide)).2.2⟩

/-! ### Heredoc round-trip failure -/

theorem takeWhile_ne_eq_self {eof : List Char} :
    ∀ (ls : List (List Char)), (∀ l ∈ ls, l ≠ eof) →
      ls.takeWhile (fun l => l ≠ eof) = ls := by
  intro ls
  induction ls with
  | nil => intro _; rfl
  | cons x xs ih =>
    intro h
    have hx : x ≠ eof := h x (by simp)
    have hxs := ih (fun l hl => h l (List.mem_cons_of_mem _ hl))
    simp [List.takeWhile_cons, hx, hxs]
    intro l hl
    exact h l (List.mem_cons_of_mem _ hl)

theorem foldr_pySplit_nl (c : List Char) :
    (pySplit ("\n").data c).foldr (fun l acc => l ++ ("\n").data ++ acc) []
      = c ++ ("\n").data := by
  have key : ∀ n (c : List Char), c.length ≤ n →
      (pySplit ("\n").data c).foldr (fun l acc => l ++ ("\n").data ++ acc) []
        = c ++ ("\n").data := by
    intro n
    induction n with
    | zero =>
      intro c hc
      have : c = [] := List.length_eq_zero.mp (Nat.le_zero.mp hc)
      subst this
      rfl
    | succ n ih =>
      intro c hc
      rw [pySplit_eq _ _ (by decide)]
      cases hfi : firstIdx ("\n").data c with
      | none => simp
      | some i =>
        have hle := firstIdx_add_pat_le hfi
        have hlen1 : ("\n").data.length = 1 := rfl
        rw [hlen1] at hle
        have hdec : (c.drop (i + 1)).length ≤ n := by
          rw [List.length_drop]; omega
        show (c.take i) ++ ("\n").data ++
            ((pySplit ("\n").data (c.drop (i + 1))).foldr
              (fun l acc => l ++ ("\n").data ++ acc) []) = c ++ ("\n").data
        rw [ih _ hdec]
        have hdi : c.drop i = '\n' :: c.drop (i + 1) := drop_of_firstIdx_single hfi
        conv_rhs => rw [← List.take_append_drop i c, hdi]
        simp
  exact key c.length c (Nat.le_refl _)

/-- Every EOF-free content comes back from the heredoc with one extra
trailing newline. -/
theorem heredocWritten_append_newline (c : List Char)
    (hno : ∀ l ∈ pySplit ("\n").data c, l ≠ ("EOF").data) :
    heredocWritten c = c ++ ("\n").data := by
  unfold heredocWritten
  rw [takeWhile_ne_eq_self _ hno]
  exact foldr_pySplit_nl c

/-- C3: writing the one-character content x through the heredoc transfer
succeeds, but the stored bytes carry an extra trailing newline, so the
read-back content differs from what was written; a lone EOF line is
truncated away entirely.  The round-trip property fails on the v2 writer. -/
theorem c3_heredoc_write_breaks_roundtrip :
    (write_file_handler (fun _ => .completed ⟨0, [], []⟩)
        [(("file").data, .s ("a.php").data),
         (("content").data, .s ("x").data)]).result
      = .ok [(("file").data, .s ("a.php").data),
             (("bytes_written").data, .n 1),
             (("lines_written").data, .n 1),
             (("status").data, .s ("success").data)] ∧
    heredocWritten ("x").data = ("x\n").data ∧
    (read_file_handler (fun _ => .completed ⟨0, heredocWritten ("x").data, []⟩)
        [(("file").data, .s ("a.php").data)]).result
      = .ok [(("file").data, .s ("a.php").data),
             (("content").data, .s ("x\n").data),
             (("size").data, .n 2),
             (("lines").data, .n 2)] ∧
    ("x\n").data ≠ ("x").data ∧
    heredocWritten ("EOF").data = [] :=
  ⟨rfl, rfl, rfl, by decide, rfl⟩

/-! ### Read metadata -/

/-- C10 counterexample to the final conjunct as stated: the content a,
newline, newline ends in a newline, reports 3 lines, but has only one
non-empty line, and 3 is not one more than 1. -/
theorem c10_blank_line_counterexample :
    (read_file_handler (fun _ => .completed ⟨0, ("a\n\n").data, []⟩)
        [(("file").data, .s ("f.php").data)]).result
      = .ok [(("file").data, .s ("f.php").data),
             (("content").data, .s ("a\n\n").data),
             (("size").data, .n 3),
             (("lines").data, .n 3)] ∧
    ("a\n\n").data.getLast? = some '\n' ∧
    ((pySplit ("\n").data ("a\n\n").data).filter
        (fun l => !l.isEmpty)).length = 1 ∧
    (3 : Int) ≠ 1 + 1 :=
  ⟨rfl, rfl, rfl, by decide⟩

/-- C10 amended: a successful read reports size equal to the content
length and a line count equal to the number of newline-split pieces, which
is one plus the number of newline characters; the count is at least one,
an empty content reports size 0 and lines 1, and content ending in a
newline all of whose interior lines are non-empty reports one more line
than it has non-empty lines. -/
theorem c10_read_metadata_amended :
    ∀ (p : List Char) (bridge : BridgeFn) (r : RawResult),
      pyContains ("..").data p = false →
      ("/").data.isPrefixOf p = false →
      p.isEmpty = false →
      bridge (readCmd p) = .completed r →
      r.exitCode = 0 →
      (read_file_handler bridge [(("file").data, .s p)]).result
          = .ok [(("file").data, .s p),
                 (("content").data, .s r.stdout),
                 (("size").data, .n (r.stdout.length : Int)),
                 (("lines").data, .n ((pySplit ("\n").data r.stdout).length : Int))] ∧
      (aiReadFile bridge (some (.s p))).result
          = .ok [(("file").data, .s p),
                 (("content").data, .s r.stdout),
                 (("size").data, .n (r.stdout.length : Int)),
                 (("lines").data, .n ((pySplit ("\n").data r.stdout).length : Int))] ∧
      (pySplit ("\n").data r.stdout).length = 1 + r.stdout.count '\n' ∧
      1 ≤ (pySplit ("\n").data r.stdout).length ∧
      (r.stdout = [] →
        r.stdout.length = 0 ∧ (pySplit ("\n").data r.stdout).length = 1) ∧
      (r.stdout.getLast? = some '\n' →
        (∀ l ∈ (pySplit ("\n").data r.stdout).dropLast, l ≠ []) →
        (pySplit ("\n").data r.stdout).length
          = ((pySplit ("\n").data r.stdout).filter
              (fun l => !l.isEmpty)).length + 1) := by
  intro p bridge r h1 h2 h3 hbr he
  have hbne : (r.exitCode != 0) = false := by simp [he]
  refine ⟨?_, ?_, pySplit_nl_length r.stdout, ?_, ?_, ?_⟩
  · simp [read_file_handler, h1, h2, hbr, hbne]
  · simp [aiReadFile, jTruthy, h3, h1, hbr, hbne]
  · rw [pySplit_nl_length]
    omega
  · intro hnil
    rw [hnil]
    exact ⟨rfl, rfl⟩
  · intro hend hinterior
    exact pySplit_nl_nonEmpty_count hend hinterior

/-- Witness: reading the content a, newline, b, newline reports size 4 and
lines 3, one more than its two non-empty lines. -/
theorem c10_read_metadata_amended_witness :
    (read_file_handler (fun _ => .completed ⟨0, ("a\nb\n").data, []⟩)
        [(("file").data, .s ("f.php").data)]).result
      = .ok [(("file").data, .s ("f.php").data),
             (("content").data, .s ("a\nb\n").data),
             (("size").data, .n (("a\nb\n").data.length : Int)),
             (("lines").data,
               .n ((pySplit ("\n").data ("a\nb\n").data).length : Int))] ∧
    (pySplit ("\n").data ("a\nb\n").data).length
      = 1 + ("a\nb\n").data.count '\n' :=
  ⟨(c10_read_metadata_amended ("f.php").data
      (fun _ => .completed ⟨0, ("a\nb\n").data, []⟩) ⟨0, ("a\nb\n").data, []⟩
      (by decide) (by decide) (by decide) rfl rfl).1,
   (c10_read_metadata_amended ("f.php").data
      (fun _ => .completed ⟨0, ("a\nb\n").data, []⟩) ⟨0, ("a\nb\n").data, []⟩
      (by decide) (by decide) (by decide) rfl rfl).2.2.1⟩

/-! ### File-not-found status codes -/

/-- C8 counterexample to the claim as stated: a read of a valid path whose
file does not exist (bridge exit 1) is answered HTTP 400 by
container-api.py and HTTP 200 by container-api-ai.py, never 500. -/
theorem c8_read_not_found_400 :
    (handleFileOperation ("read-file").data
        (.parsed [(("file").data, .s ("nope.php").data)])
        (fun _ => .completed ⟨1, [], ("cat: nope.php: No such file").data⟩)
        [] []).status = 400 ∧
    (400 : Nat) ≠ 500 ∧
    (aiHandleFileOperation ("read-file").data
        (.parsed [(("file").data, .s ("nope.php").data)])
        (fun _ => .completed ⟨1, [], ("cat: nope.php: No such file").data⟩)
        []).status = 200 ∧
    (200 : Nat) ≠ 500 :=
  ⟨rfl, by decide, rfl, by decide⟩

/-- C8 amended: a read-file request with a valid path whose target is
missing (bridge exit non-zero) is answered HTTP 400 by container-api.py,
with the bridge stderr attached to the body, and HTTP 200 by
container-api-ai.py with the body error File not found and no stderr; 500
is not used for this case. -/
theorem c8_not_found_amended :
    ∀ (p ts now : List Char) (bridge : BridgeFn) (r : RawResult),
      pyContains ("..").data p = false →
      ("/").data.isPrefixOf p = false →
      p.isEmpty = false →
      bridge (readCmd p) = .completed r →
      r.exitCode ≠ 0 →
      (handleFileOperation ("read-file").data
          (.parsed [(("file").data, .s p)]) bridge ts now).status = 400 ∧
      List.lookup ("stderr").data
          (handleFileOperation ("read-file").data
            (.parsed [(("file").data, .s p)]) bridge ts now).body
        = some (.s r.stderr) ∧
      List.lookup ("error").data
          (handleFileOperation ("read-file").data
            (.parsed [(("file").data, .s p)]) bridge ts now).body
        = some (.s ("File not found or not readable").data) ∧
      (aiHandleFileOperation ("read-file").data
          (.parsed [(("file").data, .s p)]) bridge now).status = 200 ∧
      List.lookup ("error").data
          (aiHandleFileOperation ("read-file").data
            (.parsed [(("file").data, .s p)]) bridge now).body
        = some (.s ("File not found").data) ∧
      List.lookup ("stderr").data
          (aiHandleFileOperation ("read-file").data
            (.parsed [(("file").data, .s p)]) bridge now).body = none := by
  intro p ts now bridge r h1 h2 h3 hbr hexit
  have hbne : (r.exitCode != 0) = true := by simpa using hexit
  have hro : read_file_handler bridge [(("file").data, .s p)]
      = ⟨.ok [(("error").data, .s ("File not found or not readable").data),
              (("stderr").data, .s r.stderr)], [readCmd p]⟩ := by
    simp [read_file_handler, h1, h2, hbr, hbne]
  have hai : aiReadFile bridge (some (.s p))
      = ⟨.ok [(("error").data, .s ("File not found").data)], [readCmd p]⟩ := by
    simp [aiReadFile, jTruthy, h3, h1, hbr, hbne]
  have hh : handleFileOperation ("read-file").data
      (.parsed [(("file").data, .s p)]) bridge ts now
      = ⟨400, [(("timestamp").data, .s ts),
               (("operation").data, .s ("read-file").data),
               (("container").data, .s ("master-nextcloud-1").data),
               (("error").data, .s ("File not found or not readable").data),
               (("stderr").data, .s r.stderr)]⟩ := by
    simp [handleFileOperation, hro, dictUpdate, setKey]
  have hha : aiHandleFileOperation ("read-file").data
      (.parsed [(("file").data, .s p)]) bridge now
      = ⟨200, [(("error").data, .s ("File not found").data)]⟩ := by
    simp [aiHandleFileOperation, hai]
  refine ⟨?_, ?_, ?_, ?_, ?_, ?_⟩ <;>
    first
      | (rw [hh]; try rfl)
      | (rw [hha]; try rfl)

/-- Witness: the missing file nope.php triggers 400 with stderr attached
and 200 with the short error. -/
theorem c8_not_found_amended_witness :
    (handleFileOperation ("read-file").data
        (.parsed [(("file").data, .s ("nope.php").data)])
        (fun _ => .completed ⟨1, [], ("no such file").data⟩) [] []).status
      = 400 ∧
    List.lookup ("stderr").data
        (handleFileOperation ("read-file").data
          (.parsed [(("file").data, .s ("nope.php").data)])
          (fun _ => .completed ⟨1, [], ("no such file").data⟩) [] []).body
      = some (.s ("no such file").data) :=
  ⟨(c8_not_found_amended ("nope.php").data [] []
      (fun _ => .completed ⟨1, [], ("no such file").data⟩)
      ⟨1, [], ("no such file").data⟩
      (by decide) (by decide) (by decide) rfl (by decide)).1,
   (c8_not_found_amended ("nope.php").data [] []
      (fun _ => .completed ⟨1, [], ("no such file").data⟩)
      ⟨1, [], ("no such file").data⟩
      (by decide) (by decide) (by decide) rfl (by decide)).2.1⟩

/-! ### AI-fix required fields -/

/-- C9 counterexample to the claim as stated: a body carrying all three
fields, with an empty issues list and empty content, is still rejected
with 400 instead of proceeding to the prompt and the model call. -/
theorem c9_empty_fields_rejected :
    handleAiFixPre (fun _ => []) (fun _ => [])
        (.parsed [(("file").data, .s ("a.php").data),
                  (("issues").data, .list []),
                  (("content").data, .s [])])
      = .reply ⟨400, [(("error").data, .s ("Missing required fields").data)]⟩ ∧
    (List.lookup ("file").data
        [(("file").data, JVal.s ("a.php").data),
         (("issues").data, JVal.list []),
         (("content").data, JVal.s [])]).isSome = true ∧
    (List.lookup ("issues").data
        [(("file").data, JVal.s ("a.php").data),
         (("issues").data, JVal.list []),
         (("content").data, JVal.s [])]).isSome = true ∧
    (List.lookup ("content").data
        [(("file").data, JVal.s ("a.php").data),
         (("issues").data, JVal.list []),
         (("content").data, JVal.s [])]).isSome = true :=
  ⟨rfl, rfl, rfl, rfl⟩

/-- C9 amended: a body missing any of file, issues or content is answered
400 with the fixed message Missing required fields (the message does not
name the specific fields); when all three are present the request proceeds
to prompt construction and the model call exactly when all three are
truthy, and is answered the same 400 when any present value is empty. -/
theorem c9_ai_fix_fields_amended :
    ∀ (dumps pyToStr : JVal → List Char) (d : Fields),
      ((List.lookup ("file").data d = none ∨
        List.lookup ("issues").data d = none ∨
        List.lookup ("content").data d = none) →
        handleAiFixPre dumps pyToStr (.parsed d)
          = .reply ⟨400, [(("error").data,
              .s ("Missing required fields").data)]⟩) ∧
      (∀ fv iv cv,
        List.lookup ("file").data d = some fv →
        List.lookup ("issues").data d = some iv →
        List.lookup ("content").data d = some cv →
        ((jTruthy (some fv) && jTruthy (some iv) && jTruthy (some cv)) = true →
          handleAiFixPre dumps pyToStr (.parsed d)
            = .callModel (buildPrompt dumps pyToStr iv cv)) ∧
        ((jTruthy (some fv) && jTruthy (some iv) && jTruthy (some cv)) = false →
          handleAiFixPre dumps pyToStr (.parsed d)
            = .reply ⟨400, [(("error").data,
                .s ("Missing required fields").data)]⟩)) := by
  intro dumps pyToStr d
  constructor
  · intro hmiss
    rcases hmiss with h | h | h
    · cases h2 : List.lookup ("issues").data d <;>
        cases h3 : List.lookup ("content").data d <;>
          simp [handleAiFixPre, h, h2, h3]
    · cases h1 : List.lookup ("file").data d <;>
        cases h3 : List.lookup ("content").data d <;>
          simp [handleAiFixPre, h1, h, h3]
    · cases h1 : List.lookup ("file").data d <;>
        cases h2 : List.lookup ("issues").data d <;>
          simp [handleAiFixPre, h1, h2, h]
  · intro fv iv cv h1 h2 h3
    constructor
    · intro ht
      simp [handleAiFixPre, h1, h2, h3, ht]
    · intro hf
      simp [handleAiFixPre, h1, h2, h3, hf]

/-- Witness: a body with all three fields non-empty proceeds to the model
call with the built prompt. -/
theorem c9_ai_fix_fields_amended_witness :
    handleAiFixPre (fun _ => []) (fun _ => [])
        (.parsed [(("file").data, .s ("a.php").data),
                  (("issues").data, .list [.s ("i").data]),
                  (("content").data, .s ("<?php").data)])
      = .callModel (buildPrompt (fun _ => []) (fun _ => [])
          (.list [.s ("i").data]) (.s ("<?php").data)) :=
  ((c9_ai_fix_fields_amended (fun _ => []) (fun _ => [])
      [(("file").data, .s ("a.php").data),
       (("issues").data, .list [.s ("i").data]),
       (("content").data, .s ("<?php").data)]).2
    (.s ("a.php").data) (.list [.s ("i").data]) (.s ("<?php").data)
    rfl rfl rfl).1 rfl

/-! ### Unknown routes -/

theorem lookup_none_keys {α : Type} {l : List ((List Char) × α)}
    {k : List Char} (h : List.lookup k l = none) : ∀ e ∈ l, e.1 ≠ k := by
  induction l with
  | nil => intro e he; cases he
  | cons p rest ih =>
    intro e he
    unfold List.lookup at h
    cases hk : (k == p.1) with
    | true => rw [hk] at h; cases h
    | false =>
      rw [hk] at h
      rcases List.mem_cons.mp he with rfl | hmem
      · intro hc
        rw [hc] at hk
        simp at hk
      · exact ih h e hmem

/-- C7 counterexample to the claim as stated: the 404 body of
container-api-ai.py carries only an error message, with no
available_commands list at all. -/
theorem c7_ai_404_no_command_list :
    aiDoPost ("/does-not-exist").data
      = .unknown ⟨404, [(("error").data,
          .s ("Unknown endpoint: does-not-exist").data)]⟩ ∧
    List.lookup ("available_commands").data
        [(("error").data, JVal.s ("Unknown endpoint: does-not-exist").data)]
      = none :=
  ⟨rfl, rfl⟩

/-- C7 amended: for an unknown POST path, container-api.py answers 404
with a body whose available_commands lists every registered command name
plus the three file operations and does not contain the unknown name;
container-api-ai.py answers 404 with only an error message and no
available_commands field. -/
theorem c7_unknown_route_amended :
    ∀ rawPath : List Char,
      fileOpNames.contains (rawPath.dropWhile (· = '/')) = false →
      List.lookup (rawPath.dropWhile (· = '/')) COMMANDS = none →
      ((rawPath.dropWhile (· = '/')) == ("ai-fix-code").data) = false →
      List.lookup (rawPath.dropWhile (· = '/')) AI_SERVER_COMMANDS = none →
      (doPost rawPath = .unknown ⟨404, [
          (("error").data,
            .s (("Unknown command: ").data ++ (rawPath.dropWhile (· = '/')))),
          (("available_commands").data,
            .list ((COMMANDS.map (fun e => JVal.s e.1))
              ++ (fileOpNames.map JVal.s)))]⟩ ∧
       (JVal.s (rawPath.dropWhile (· = '/')))
          ∉ ((COMMANDS.map (fun e => JVal.s e.1)) ++ (fileOpNames.map JVal.s)) ∧
       (∀ e ∈ COMMANDS, JVal.s e.1
          ∈ ((COMMANDS.map (fun e => JVal.s e.1)) ++ (fileOpNames.map JVal.s))) ∧
       (∀ f ∈ fileOpNames, JVal.s f
          ∈ ((COMMANDS.map (fun e => JVal.s e.1)) ++ (fileOpNames.map JVal.s)))) ∧
      (aiDoPost rawPath = .unknown ⟨404,
          [(("error").data,
            .s (("Unknown endpoint: ").data ++ (rawPath.dropWhile (· = '/'))))]⟩ ∧
       List.lookup ("available_commands").data
          [(("error").data,
            JVal.s (("Unknown endpoint: ").data ++ (rawPath.dropWhile (· = '/'))))]
        = none) := by
  intro rawPath h1 h2 h3 h4
  refine ⟨⟨?_, ?_, ?_, ?_⟩, ⟨?_, ?_⟩⟩
  · simp only [doPost, h1, Bool.false_eq_true, if_false, h2]
  · intro hmem
    rcases List.mem_append.mp hmem with hl | hr
    · rcases List.mem_map.mp hl with ⟨e, hel, heq⟩
      have : e.1 = rawPath.dropWhile (· = '/') := by
        simpa [JVal.s.injEq] using heq
      exact lookup_none_keys h2 e hel this
    · rcases List.mem_map.mp hr with ⟨f, hfl, heq⟩
      have hfq : f = rawPath.dropWhile (· = '/') := by
        simpa [JVal.s.injEq] using heq
      rw [hfq] at hfl
      have : fileOpNames.contains (rawPath.dropWhile (· = '/')) = true := by
        exact List.elem_eq_true_of_mem hfl
      rw [this] at h1
      cases h1
  · intro e hel
    exact List.mem_append_left _ (List.mem_map_of_mem _ hel)
  · intro f hfl
    exact List.mem_append_right _ (List.mem_map_of_mem _ hfl)
  · simp only [aiDoPost, h1, Bool.false_eq_true, if_false, h3, h4]
  · rfl

/-- Witness: the path does-not-exist is dispatched to the 404 branch in
both servers, its body listing every known command in container-api.py and
nothing in container-api-ai.py. -/
theorem c7_unknown_route_amended_witness :
    doPost ("/does-not-exist").data = .unknown ⟨404, [
        (("error").data,
          .s (("Unknown command: ").data
            ++ (("/does-not-exist").data.dropWhile (· = '/')))),
        (("available_commands").data,
          .list ((COMMANDS.map (fun e => JVal.s e.1))
            ++ (fileOpNames.map JVal.s)))]⟩ ∧
    (JVal.s (("/does-not-exist").data.dropWhile (· = '/')))
      ∉ ((COMMANDS.map (fun e => JVal.s e.1)) ++ (fileOpNames.map JVal.s)) :=
  ⟨(c7_unknown_route_amended ("/does-not-exist").data
      rfl rfl rfl rfl).1.1,
   (c7_unknown_route_amended ("/does-not-exist").data
      rfl rfl rfl rfl).1.2.1⟩

/-! ### Textual metrics -/

/-- The cs-fix loop body is the match-or-keep step over lineMatchValue. -/
theorem csFixLoopBody_eq :
    csFixLoopBody = (fun acc l =>
      match lineMatchValue l with | some v => v | none => acc) := by
  funext acc l
  unfold csFixLoopBody lineMatchValue
  cases hc : (pyContains ("Fixed").data l || pyContains ("fixed").data l) with
  | true =>
    simp only [hc, if_true]
    cases reSearch matchNumFileAt l <;> simp
  | false => simp [hc]

/-- The whole cs-fix fold keeps the last matching value. -/
theorem csFix_foldl_last :
    ∀ (ls : List (List Char)) (a : Int),
      ls.foldl csFixLoopBody a
        = ((ls.filterMap lineMatchValue).getLast?).getD a := by
  intro ls
  induction ls with
  | nil => intro a; rfl
  | cons l ls ih =>
    intro a
    rw [List.foldl_cons, List.filterMap_cons]
    have hb : csFixLoopBody a l = (lineMatchValue l).getD a := by
      unfold csFixLoopBody lineMatchValue
      cases hc : (pyContains ("Fixed").data l || pyContains ("fixed").data l) with
      | true =>
        simp only [hc, if_true]
        cases reSearch matchNumFileAt l <;> rfl
      | false => simp [hc]
    rw [hb]
    cases hg : lineMatchValue l with
    | none =>
      simp only [Option.getD_none]
      exact ih a
    | some v =>
      simp only [Option.getD_some]
      rw [ih v]
      cases hfm : ls.filterMap lineMatchValue with
      | nil => simp
      | cons x xs =>
        rw [List.getLast?_cons_cons]
        cases hgl : (x :: xs).getLast? with
        | none => simp at hgl
        | some w => simp

/-- C6 counterexample to the claim as stated: with two matching lines, the
surfaced files-fixed count is the last match, 2, not the first match, 1. -/
theorem c6_cs_fix_last_match :
    List.lookup ("files_fixed").data
        (process_cs_fix_result ⟨0, ("Fixed 1 file\nFixed 2 files").data, []⟩)
      = some (.n 2) ∧
    firstNumFileMatch ("Fixed 1 file\nFixed 2 files").data = 1 ∧
    (2 : Int) ≠ 1 :=
  ⟨rfl, rfl, by decide⟩

/-- C6 amended: the cs-fix post-processor surfaces the count from the LAST
matching line (default 0 when no line matches, and no error is possible);
the test-run post-processor surfaces the leftmost match of each metric
pattern as an integer, with 0 when the pattern is absent. -/
theorem c6_metrics_amended :
    ∀ result : RawResult,
      List.lookup ("files_fixed").data (process_cs_fix_result result)
          = some (.n (lastNumFileMatch result.stdout)) ∧
      ((pySplit ("\n").data result.stdout).filterMap lineMatchValue = [] →
        List.lookup ("files_fixed").data (process_cs_fix_result result)
          = some (.n 0)) ∧
      List.lookup ("tests_run").data (process_test_result result)
          = some (.n ((((leftmostLabelNum ("Tests:").data
              result.stdout).map digitsToNat).getD 0 : Nat) : Int)) ∧
      List.lookup ("assertions").data (process_test_result result)
          = some (.n ((((leftmostLabelNum ("Assertions:").data
              result.stdout).map digitsToNat).getD 0 : Nat) : Int)) ∧
      List.lookup ("failures").data (process_test_result result)
          = some (.n ((((leftmostLabelNum ("Failures:").data
              result.stdout).map digitsToNat).getD 0 : Nat) : Int)) ∧
      (leftmostLabelNum ("Tests:").data result.stdout = none →
        List.lookup ("tests_run").data (process_test_result result)
          = some (.n 0)) := by
  intro result
  have hfold : (pySplit ("\n").data result.stdout).foldl csFixLoopBody 0
      = lastNumFileMatch result.stdout := by
    unfold lastNumFileMatch
    exact csFix_foldl_last (pySplit ("\n").data result.stdout) 0
  have h1 : List.lookup ("files_fixed").data (process_cs_fix_result result)
      = some (.n ((pySplit ("\n").data result.stdout).foldl csFixLoopBody 0)) :=
    rfl
  have hts : leftmostLabelNum ("Tests:").data result.stdout
      = reSearch (matchLabelNumAt ("Tests:").data) result.stdout :=
    (reSearch_eq_findSome _ _).symm
  have has : leftmostLabelNum ("Assertions:").data result.stdout
      = reSearch (matchLabelNumAt ("Assertions:").data) result.stdout :=
    (reSearch_eq_findSome _ _).symm
  have hfs : leftmostLabelNum ("Failures:").data result.stdout
      = reSearch (matchLabelNumAt ("Failures:").data) result.stdout :=
    (reSearch_eq_findSome _ _).symm
  refine ⟨?_, ?_, ?_, ?_, ?_, ?_⟩
  · rw [h1, hfold]
  · intro hempty
    rw [h1, hfold]
    unfold lastNumFileMatch
    rw [hempty]
    rfl
  · rw [hts]; rfl
  · rw [has]; rfl
  · rw [hfs]; rfl
  · intro hnone
    rw [hts] at hnone
    have hred : List.lookup ("tests_run").data (process_test_result result)
        = some (JVal.n ((((reSearch (matchLabelNumAt ("Tests:").data)
            result.stdout).map digitsToNat).getD 0 : Nat) : Int)) := rfl
    rw [hred, hnone]
    rfl

/-- Witness: a single Tests line surfaces 5, and an output with no Tests
pattern surfaces 0. -/
theorem c6_metrics_amended_witness :
    List.lookup ("files_fixed").data
        (process_cs_fix_result ⟨0, ("Fixed 3 files").data, []⟩)
      = some (.n (lastNumFileMatch ("Fixed 3 files").data)) ∧
    List.lookup ("tests_run").data
        (process_test_result ⟨0, ("nothing").data, []⟩)
      = some (.n 0) :=
  ⟨(c6_metrics_amended ⟨0, ("Fixed 3 files").data, []⟩).1,
   (c6_metrics_amended ⟨0, ("nothing").data, []⟩).2.2.2.2.2 rfl⟩

/-! ### Fence extraction claims -/

/-- C4 counterexample to the claim as stated: a response with no fence is
returned unchanged, not trimmed. -/
theorem c4_no_fence_not_trimmed :
    extractCode (" x ").data = (" x ").data ∧
    pyStrip ((" x ").data) = ("x").data ∧
    (" x ").data ≠ ("x").data :=
  ⟨rfl, rfl, by decide⟩

/-- C4 amended: with a php-tagged fence present, the extracted code is the
text after the first php fence tag, cut at the next bare fence, trimmed;
with only a bare fence present, it is the text between the first two bare
fences, trimmed; with no fence at all the response is returned unchanged
(not trimmed). -/
theorem c4_extraction_amended :
    ∀ r : List Char,
      (∀ i, firstIdx ("```php").data r = some i →
        extractCode r
          = pyStrip (upToPat ("```").data
              (upToPat ("```php").data
                (r.drop (i + ("```php").data.length))))) ∧
      (firstIdx ("```php").data r = none →
        ∀ j, firstIdx ("```").data r = some j →
        extractCode r
          = pyStrip (upToPat ("```").data
              (r.drop (j + ("```").data.length)))) ∧
      (firstIdx ("```").data r = none → extractCode r = r) := by
  intro r
  refine ⟨?_, ?_, ?_⟩
  · intro i hfi
    have hcon : pyContains ("```php").data r = true := by
      unfold pyContains
      rw [hfi]
      rfl
    unfold extractCode
    rw [hcon]
    simp only [if_true]
    rw [pySplit_second ("```php").data r (by decide) hfi]
    rw [pySplit_head ("```").data _ (by decide)]
  · intro hnone j hj
    have hconp : pyContains ("```php").data r = false := by
      unfold pyContains
      rw [hnone]
      rfl
    have hconb : pyContains ("```").data r = true := by
      unfold pyContains
      rw [hj]
      rfl
    unfold extractCode
    rw [hconp, hconb]
    simp only [Bool.false_eq_true, if_false, if_true]
    rw [pySplit_second ("```").data r (by decide) hj]
    rw [pySplit_head ("```").data _ (by decide)]
    rw [upToPat_idem ("```").data _ (by decide)]
  · intro hbt
    have hconb : pyContains ("```").data r = false := by
      unfold pyContains
      rw [hbt]
      rfl
    have hconp : pyContains ("```php").data r = false := by
      cases hc : pyContains ("```php").data r with
      | false => rfl
      | true =>
        rw [pyContains_php_imp hc] at hconb
        cases hconb
    unfold extractCode
    rw [hconp, hconb]
    simp

/-- Witness: a response wrapped in a php fence extracts the fenced inner
text trimmed. -/
theorem c4_extraction_amended_witness :
    extractCode ("```php\nfoo\n```").data
      = pyStrip (upToPat ("```").data
          (upToPat ("```php").data
            (("```php\nfoo\n```").data.drop
              (0 + ("```php").data.length)))) ∧
    extractCode ("```php\nfoo\n```").data = ("foo").data :=
  ⟨(c4_extraction_amended ("```php\nfoo\n```").data).1 0 rfl, rfl⟩
